import Mathlib

/-!
# Order lifecycle of the campus restaurant reservation backend

A shallow embedding of `backend/controllers/orderController.js` and
`backend/controllers/staffController.js`: request handlers become pure
functions from the order collection (and the request) to a response and the
new order collection.

JavaScript numbers with an integral value are embedded with the rounding of
double arithmetic (`JsNum`): every integer up to `2^53` in absolute value is kept
exactly, larger ones are rounded to the nearest double (ties to even) or to an
infinity, and `Number.prototype.toString` prints the shortest decimal that
converts back, in exponent notation from `10^21` on.
-/

namespace Restaurant

/-! ## JavaScript numbers -/

/-- The bound `2^53`: every integer of absolute value up to it is a double. -/
def twoPow53 : Nat := 9007199254740992

/-- The bound `2^1024`: a magnitude that rounds to it or beyond is an infinity. -/
def twoPow1024 : Nat :=
  let a : Nat := 340282366920938463463374607431768211456
  (a * a) * (a * a) * ((a * a) * (a * a))

/-- How many times `n` has to be halved to fall below `2^53` (at most `fuel` times). -/
def excessBits : Nat → Nat → Nat
  | 0, _ => 0
  | fuel + 1, n => if n < twoPow53 then 0 else excessBits fuel (n / 2) + 1

/-- The double nearest to the natural number `n` (round to nearest, ties to even,
53 significant bits), or `none` when `n` rounds to infinity. -/
def roundToDouble (n : Nat) : Option Nat :=
  if n < twoPow53 then some n
  else if twoPow1024 ≤ n then none
  else
    let e := excessBits 1024 n
    let q := n / 2 ^ e
    let r := n % 2 ^ e
    let half := 2 ^ (e - 1)
    let q' := if half < r || (r == half && q % 2 == 1) then q + 1 else q
    if twoPow1024 ≤ q' * 2 ^ e then none else some (q' * 2 ^ e)

/-- A JavaScript number whose value is an integer, `NaN` or an infinity. -/
inductive JsNum where
  | nan
  | inf (negative : Bool)
  | int (value : Int)
  deriving DecidableEq, Repr

/-- The number a sign and a magnitude denote, rounded to a double. -/
def JsNum.ofNat (negative : Bool) (n : Nat) : JsNum :=
  match roundToDouble n with
  | some m => .int (if negative then -(m : Int) else (m : Int))
  | none => .inf negative

/-- The number an integer denotes, rounded to a double. -/
def JsNum.ofInt (v : Int) : JsNum := JsNum.ofNat (decide (v < 0)) v.natAbs

/-- `x + 1` in double arithmetic: the exact sum, rounded. -/
def JsNum.addOne : JsNum → JsNum
  | .nan => .nan
  | .inf negative => .inf negative
  | .int v => JsNum.ofInt (v + 1)

/-- Search for the shortest decimal of the double `m`: the largest `j` such that a
multiple of `10^j` converts to `m`, with that multiple (the closest one, and the one
with an even multiplier on a tie). -/
def shortestDecimal (m : Nat) : Nat → Nat × Nat
  | 0 => (m, 0)
  | j + 1 =>
    let u := 10 ^ (j + 1)
    let lo := m / u * u
    let hi := lo + u
    let okLo := lo != 0 && roundToDouble lo == some m
    let okHi := roundToDouble hi == some m
    if okLo && okHi then
      if m - lo < hi - m then (lo, j + 1)
      else if hi - m < m - lo then (hi, j + 1)
      else if (lo / u) % 2 == 0 then (lo, j + 1) else (hi, j + 1)
    else if okLo then (lo, j + 1)
    else if okHi then (hi, j + 1)
    else shortestDecimal m j

/-- `Number.prototype.toString` for a positive integral double `m`. Below `2^53`
every integer is a double of its own, so the shortest decimal that converts to `m`
is `m` itself; from `10^21` on the exponent notation is used. -/
def magnitudeToString (m : Nat) : String :=
  if m < twoPow53 then Nat.repr m
  else
    let found := shortestDecimal m (Nat.toDigits 10 m).length
    let digits := Nat.toDigits 10 found.1
    let n := digits.length
    if n ≤ 21 then ⟨digits⟩
    else
      let significant := digits.take (n - found.2)
      match significant with
      | [] => ⟨digits⟩
      | [d] => ⟨[d]⟩ ++ "e+" ++ Nat.repr (n - 1)
      | d :: rest => ⟨d :: '.' :: rest⟩ ++ "e+" ++ Nat.repr (n - 1)

/-- `n.toString()` of a number. -/
def numberToString : JsNum → String
  | .nan => "NaN"
  | .inf false => "Infinity"
  | .inf true => "-Infinity"
  | .int v => if v < 0 then "-" ++ magnitudeToString v.natAbs else magnitudeToString v.natAbs

/-! ## JavaScript values and the string primitives the controllers use -/

/-- A JSON-like JavaScript value: what `req.body` fields can hold. `num n` is the
number written as the integer `n` (rounded to a double where it is used as a
number); `fraction text` is a number with a fractional part, of which the handlers
observe only that it is not zero and its string conversion `text`. -/
inductive JsVal where
  | undefined
  | null
  | bool (b : Bool)
  | num (n : Int)
  | fraction (text : String)
  | str (s : String)
  | arr (xs : List JsVal)
  | obj (fields : List (String × JsVal))

namespace JsVal

/-- Truthiness: `!v` is `false` exactly when `truthy v`. -/
def truthy : JsVal → Bool
  | undefined => false
  | null => false
  | bool b => b
  | num n => n != 0
  | fraction _ => true
  | str s => s != ""
  | arr _ => true
  | obj _ => true

/-- Lookup of a key in the field list of an object literal. -/
def lookup (key : String) : List (String × JsVal) → JsVal
  | [] => undefined
  | (k, v) :: rest => if k = key then v else lookup key rest

/-- Property read `v.key` for the keys the controllers read (`name`, `quantity`,
`price`): it throws a `TypeError` on `null` and `undefined`, reads the field of
an object and is `undefined` on every other value. -/
def get (v : JsVal) (key : String) : Except String JsVal :=
  match v with
  | undefined => .error ("Cannot read properties of undefined (reading '" ++ key ++ "')")
  | null => .error ("Cannot read properties of null (reading '" ++ key ++ "')")
  | obj fields => .ok (lookup key fields)
  | _ => .ok undefined

/-- `a || b`. -/
def or (a b : JsVal) : JsVal := if a.truthy then a else b

/-- An object literal has an own property of the given name. -/
def hasKey (key : String) (fields : List (String × JsVal)) : Bool :=
  fields.any (fun field => field.1 == key)

mutual
/-- String conversion as done by a template literal `${v}`; it throws a `TypeError`
for an object whose own `toString` property hides `Object.prototype.toString` (a
JSON value is never callable), and for an array holding such an object. -/
def toStr : JsVal → Except String String
  | undefined => .ok "undefined"
  | null => .ok "null"
  | bool true => .ok "true"
  | bool false => .ok "false"
  | num n => .ok (numberToString (JsNum.ofInt n))
  | fraction text => .ok text
  | str s => .ok s
  | arr xs => joinStr xs
  | obj fields =>
    if hasKey "toString" fields then .error "Cannot convert object to primitive value"
    else .ok "[object Object]"
termination_by structural v => v
/-- `Array.prototype.join(",")`, used by the string conversion of arrays. -/
def joinStr : List JsVal → Except String String
  | [] => .ok ""
  | x :: xs =>
    match (match x with
      | undefined => Except.ok ""
      | null => Except.ok ""
      | v => toStr v) with
    | .error e => .error e
    | .ok first =>
      match joinStr xs with
      | .error e => .error e
      | .ok rest => .ok (first ++ (if xs.isEmpty then "" else ",") ++ rest)
termination_by structural l => l
end

end JsVal

/-- `list.includes(v)` for a list of string literals: only a string can be found. -/
def includes (list : List String) (v : JsVal) : Bool :=
  match v with
  | .str s => list.contains s
  | _ => false

/-- White space skipped by `parseInt` at the start of its argument. -/
def isWhiteSpace (c : Char) : Bool :=
  [0x09, 0x0A, 0x0B, 0x0C, 0x0D, 0x20, 0xA0, 0x1680, 0x2028, 0x2029, 0x202F,
    0x205F, 0x3000, 0xFEFF].contains c.toNat || (0x2000 ≤ c.toNat && c.toNat ≤ 0x200A)

/-- Value of a character as a digit, for radix up to 36. -/
def digitValue (c : Char) : Option Nat :=
  if '0' ≤ c ∧ c ≤ '9' then some (c.toNat - '0'.toNat)
  else if 'a' ≤ c ∧ c ≤ 'z' then some (c.toNat - 'a'.toNat + 10)
  else if 'A' ≤ c ∧ c ≤ 'Z' then some (c.toNat - 'A'.toNat + 10)
  else none

/-- The longest prefix of characters that are digits in the given radix, as values. -/
def takeDigits (radix : Nat) : List Char → List Nat
  | [] => []
  | c :: cs =>
    match digitValue c with
    | some d => if d < radix then d :: takeDigits radix cs else []
    | none => []

/-- Value of a digit sequence, most significant digit first. -/
def digitsValue (radix : Nat) (ds : List Nat) : Nat :=
  ds.foldl (fun acc d => acc * radix + d) 0

/-- The optional sign read by `parseInt`: whether it is a minus, and the rest. -/
def parseSign : List Char → Bool × List Char
  | '-' :: r => (true, r)
  | '+' :: r => (false, r)
  | cs => (false, cs)

/-- The radix `parseInt` chooses without a radix argument: 16 after a `0x` or `0X`
prefix (which is dropped), otherwise 10. -/
def parseRadix : List Char → Nat × List Char
  | '0' :: 'x' :: r => (16, r)
  | '0' :: 'X' :: r => (16, r)
  | cs => (10, cs)

/-- `parseInt(s)` without a radix argument: leading white space, an optional sign,
an optional `0x` prefix, then the longest run of digits, whose value is rounded to
a double; `NaN` when there is no digit. -/
def parseInt (s : String) : JsNum :=
  let signed := parseSign (s.data.dropWhile isWhiteSpace)
  let based := parseRadix signed.2
  let ds := takeDigits based.1 based.2
  if ds.isEmpty then .nan
  else JsNum.ofNat signed.1 (digitsValue based.1 ds)

/-- Replacement of the first occurrence of a pattern in a character list. -/
def replaceFirstChars (pat rep : List Char) : List Char → List Char
  | [] => if pat.isEmpty then rep else []
  | c :: cs =>
    if pat.isPrefixOf (c :: cs) then rep ++ (c :: cs).drop pat.length
    else c :: replaceFirstChars pat rep cs

/-- `s.replace(pat, rep)` with a string pattern: only the first occurrence is replaced. -/
def replaceFirst (s pat rep : String) : String :=
  ⟨replaceFirstChars pat.data rep.data s.data⟩

/-- `s.padStart(width, c)` with a one-character filler: nothing is cut off. -/
def padStart (s : String) (width : Nat) (c : Char) : String :=
  ⟨List.replicate (width - s.length) c ++ s.data⟩

/-! ## Data model -/

/-- Order status, the enum of the order schema. -/
inductive Status where
  | pending
  | preparing
  | ready
  | picked
  | cancelled
  deriving DecidableEq, Repr

/-- The string stored for a status. -/
def Status.toString : Status → String
  | .pending => "pending"
  | .preparing => "preparing"
  | .ready => "ready"
  | .picked => "picked"
  | .cancelled => "cancelled"

/-- The status a string denotes, if any. -/
def Status.ofString? (s : String) : Option Status :=
  if s = "pending" then some .pending
  else if s = "preparing" then some .preparing
  else if s = "ready" then some .ready
  else if s = "picked" then some .picked
  else if s = "cancelled" then some .cancelled
  else none

/-- The status a request value denotes, if it is one of the status strings. -/
def Status.ofJs? : JsVal → Option Status
  | .str s => Status.ofString? s
  | _ => none

/-- User role, the enum of `models/User.js`. -/
inductive Role where
  | student
  | staff
  | manager
  deriving DecidableEq, Repr

/-- The authenticated user of a request (`req.user`). -/
structure User where
  id : Nat
  role : Role
  deriving DecidableEq, Repr

/-- A menu item of `models/MenuItem.js` (the fields the order controller can see). -/
structure MenuItem where
  name : String
  price : Int
  isAvailable : Bool
  deriving DecidableEq, Repr

/-- The menu collection as the controllers use it: `MenuItem.findOne({ name: v })`,
which yields a document, `null` (`none`), or throws. -/
abbrev Menu := JsVal → Except String (Option MenuItem)

/-- Modelled from the spec: the order record of the missing `models/Order.js`
(section 3 of the specification). `id` is the document `_id`, `orderId` the display
identifier, `userId` the owner; `canceledBy` is spelled as the controllers spell it. -/
structure Order where
  id : Nat
  orderId : String
  userId : Nat
  items : List JsVal
  pickupTime : JsVal
  specialInstructions : JsVal
  status : Status
  cancelledAt : Option Nat
  canceledBy : Option Role

/-- Modelled from the spec: the order collection of the missing `models/Order.js`,
kept in creation order (oldest first). -/
abbrev Store := List Order

/-- `Order.findById(id)`. -/
def findById (store : Store) (id : Nat) : Option Order :=
  store.find? (fun o => o.id == id)

/-- `Order.findOne().sort({ createdAt: -1 })`: the most recently created order. -/
def lastOrder (store : Store) : Option Order :=
  store.getLast?

/-- Modelled from the spec: `order.save()` of the missing `models/Order.js`; it
writes the document back over the stored one with the same `_id`. -/
def save (order : Order) : Store → Store
  | [] => []
  | o :: rest => if o.id == order.id then order :: rest else o :: save order rest

/-- Modelled from the spec: `Order.create` of the missing `models/Order.js`. The
store guarantees unique identifiers (section 4.1): an insert with an `orderId`
already present fails with the duplicate-key error, otherwise the document is
appended under a fresh `_id`. -/
def create (store : Store) (orderId : String) (userId : Nat) (items : List JsVal)
    (pickupTime specialInstructions : JsVal) : Option (Order × Store) :=
  if store.any (fun o => o.orderId == orderId) then none
  else
    let order : Order :=
      { id := store.length, orderId := orderId, userId := userId, items := items,
        pickupTime := pickupTime, specialInstructions := specialInstructions,
        status := .pending, cancelledAt := none, canceledBy := none }
    some (order, store ++ [order])

/-- A response of a handler: `res.status(code).json(order)` or
`res.status(code).json({ message })`. -/
inductive Response where
  | json (status : Nat) (order : Order)
  | message (status : Nat) (message : String)

/-- The HTTP status code of a response. -/
def Response.status : Response → Nat
  | .json s _ => s
  | .message s _ => s

/-- A response reports success when its status code is below 400. -/
def Response.isSuccess (r : Response) : Bool := r.status < 400

/-! ## `orderController.js` -/

/-- The number read from an order identifier: `parseInt(orderId.replace('ORD', ''))`. -/
def orderNumber (orderId : String) : JsNum :=
  parseInt (replaceFirst orderId "ORD" "")

/-- `generateOrderId` (orderController.js, lines 19-28). -/
def generateOrderId (store : Store) : String :=
  match lastOrder store with
  | none => "ORD001"
  | some last =>
    let lastNumber := orderNumber last.orderId
    let newNumber := lastNumber.addOne
    "ORD" ++ padStart (numberToString newNumber) 3 '0'

/-- The validation loop over the submitted items (orderController.js, lines 48-63,
and again lines 180-194): `none` when every item passes, otherwise the response of
the first `return`, or the 500 response of the `catch` block when a step throws. -/
def validateItems (menu : Menu) : List JsVal → Option Response
  | [] => none
  | item :: rest =>
    match item.get "name" with
    | .error e => some (.message 500 e)
    | .ok name =>
      if !name.truthy then
        some (.message 400 "Each item must have name, quantity, and price")
      else
        match item.get "quantity" with
        | .error e => some (.message 500 e)
        | .ok quantity =>
          if !quantity.truthy then
            some (.message 400 "Each item must have name, quantity, and price")
          else
            match item.get "price" with
            | .error e => some (.message 500 e)
            | .ok price =>
              if !price.truthy then
                some (.message 400 "Each item must have name, quantity, and price")
              else
                match menu name with
                | .error e => some (.message 500 e)
                | .ok none =>
                  match name.toStr with
                  | .error e => some (.message 500 e)
                  | .ok text => some (.message 400 ("Menu item \"" ++ text ++ "\" not found"))
                | .ok (some menuItem) =>
                  if !menuItem.isAvailable then
                    match name.toStr with
                    | .error e => some (.message 500 e)
                    | .ok text =>
                      some (.message 400 ("Menu item \"" ++ text ++ "\" is not available"))
                  else validateItems menu rest

/-- `createOrder` (orderController.js, lines 35-92). The first guard,
`!items || !Array.isArray(items) || items.length === 0`, passes exactly for a
non-empty array; a duplicate-key error of `Order.create` is answered with 400. -/
def createOrder (menu : Menu) (user : User) (items pickupTime specialInstructions : JsVal)
    (store : Store) : Response × Store :=
  match items with
  | .arr xs =>
    if xs.length == 0 then
      (.message 400 "Please provide at least one item", store)
    else if !pickupTime.truthy then
      (.message 400 "Please provide pickup time", store)
    else
      match validateItems menu xs with
      | some r => (r, store)
      | none =>
        let orderId := generateOrderId store
        match create store orderId user.id xs pickupTime
            (specialInstructions.or (.str "")) with
        | none => (.message 400 "Order ID conflict. Please try again", store)
        | some (order, store') => (.json 201 order, store')
  | _ => (.message 400 "Please provide at least one item", store)

/-- `getCurrentOrders` (orderController.js, lines 97-109): the user's orders that are
pending, preparing or ready, newest first. -/
def getCurrentOrders (user : User) (store : Store) : List Order :=
  (store.filter (fun o =>
    o.userId == user.id && [Status.pending, .preparing, .ready].contains o.status)).reverse

/-- `getOrderHistory` (orderController.js, lines 114-126): the user's orders that are
picked or cancelled, newest first. -/
def getOrderHistory (user : User) (store : Store) : List Order :=
  (store.filter (fun o =>
    o.userId == user.id && [Status.picked, .cancelled].contains o.status)).reverse

/-- The block `if (items) { ... }` of `updateOrder` (orderController.js, lines
173-197): the response of an early `return`, or the order with its items replaced
when items were provided and passed validation. -/
def replaceItems (menu : Menu) (items : JsVal) (order : Order) : Except Response Order :=
  if items.truthy then
    match items with
    | .arr xs =>
      if xs.length == 0 then
        .error (.message 400 "Please provide at least one item")
      else
        match validateItems menu xs with
        | some r => .error r
        | none => .ok { order with items := xs }
    | _ => .error (.message 400 "Please provide at least one item")
  else .ok order

/-- `updateOrder` (orderController.js, lines 154-215). -/
def updateOrder (menu : Menu) (user : User) (id : Nat)
    (items pickupTime specialInstructions : JsVal) (store : Store) : Response × Store :=
  match findById store id with
  | none => (.message 404 "Order not found", store)
  | some order =>
    if order.userId != user.id then
      (.message 403 "Not authorized", store)
    else if order.status != .pending then
      (.message 400 "Cannot modify after preparing", store)
    else
      match replaceItems menu items order with
      | .error r => (r, store)
      | .ok order1 =>
        let order2 : Order :=
          if pickupTime.truthy then { order1 with pickupTime := pickupTime } else order1
        let order3 : Order :=
          match specialInstructions with
          | .undefined => order2
          | v => { order2 with specialInstructions := v.or (.str "") }
        (.json 200 order3, save order3 store)

/-- The student `cancelOrder` (orderController.js, lines 220-254). -/
def cancelOrder (now : Nat) (user : User) (id : Nat) (store : Store) : Response × Store :=
  match findById store id with
  | none => (.message 404 "Order not found", store)
  | some order =>
    if order.userId != user.id then
      (.message 403 "Not authorized", store)
    else if order.status != .pending then
      (.message 400 "Cannot cancel order after preparing", store)
    else if order.status == .cancelled then
      (.message 400 "Order is already cancelled", store)
    else
      let order' : Order :=
        { order with status := .cancelled, cancelledAt := some now, canceledBy := some .student }
      (.json 200 order', save order' store)

/-! ## `staffController.js` -/

namespace Staff

/-- The `validStatuses` array of `updateOrderStatus` (staffController.js, line 51). -/
def validStatuses : List String := ["pending", "preparing", "ready", "picked"]

/-- The `validTransitions` table of `updateOrderStatus` (staffController.js, lines 69-75). -/
def validTransitions : Status → List String
  | .pending => ["preparing", "cancelled"]
  | .preparing => ["ready", "cancelled"]
  | .ready => ["picked"]
  | .picked => []
  | .cancelled => []

/-- `updateOrderStatus` (staffController.js, lines 48-106). The assignment
`order.status = status` stores the status the accepted string denotes; a string
outside the schema enum would make `save` throw a validation error (400). -/
def updateOrderStatus (id : Nat) (status : JsVal) (store : Store) : Response × Store :=
  if !includes validStatuses status then
    (.message 400 ("Invalid status. Must be one of: " ++ ", ".intercalate validStatuses), store)
  else
    match findById store id with
    | none => (.message 404 "Order not found", store)
    | some order =>
      let currentStatus := order.status
      if currentStatus == .cancelled || currentStatus == .picked then
        (.message 400 "Cannot update status of cancelled or picked orders", store)
      else if !includes (validTransitions currentStatus) status then
        match status.toStr with
        | .error e => (.message 500 e, store)
        | .ok text =>
          (.message 400 ("Invalid transition: Cannot change status from "
            ++ currentStatus.toString ++ " to " ++ text), store)
      else
        match Status.ofJs? status with
        | none =>
          (.message 400 "Validation failed: status is not a valid enum value", store)
        | some newStatus =>
          let order' : Order := { order with status := newStatus }
          (.json 200 order', save order' store)

/-- The staff `cancelOrder` (staffController.js, lines 111-138). -/
def cancelOrder (now : Nat) (user : User) (id : Nat) (store : Store) : Response × Store :=
  match findById store id with
  | none => (.message 404 "Order not found", store)
  | some order =>
    if order.status == .cancelled then
      (.message 400 "Order is already cancelled", store)
    else if order.status == .picked then
      (.message 400 "Cannot cancel a picked order", store)
    else
      let order' : Order :=
        { order with status := .cancelled, cancelledAt := some now, canceledBy := some user.role }
      (.json 200 order', save order' store)

end Staff

/-! ## Sequences of lifecycle requests -/

/-- A lifecycle request together with everything it reads: the menu and the clock
at the time of the request, the authenticated user, the route parameter and the
body fields. -/
inductive Op where
  | createOrder (menu : Menu) (user : User) (items pickupTime specialInstructions : JsVal)
  | updateOrder (menu : Menu) (user : User) (id : Nat)
      (items pickupTime specialInstructions : JsVal)
  | cancelOrder (now : Nat) (user : User) (id : Nat)
  | staffCancelOrder (now : Nat) (user : User) (id : Nat)
  | updateOrderStatus (user : User) (id : Nat) (status : JsVal)

/-- One request handled against the order collection. -/
def step (store : Store) : Op → Response × Store
  | .createOrder menu user items pickupTime specialInstructions =>
    createOrder menu user items pickupTime specialInstructions store
  | .updateOrder menu user id items pickupTime specialInstructions =>
    updateOrder menu user id items pickupTime specialInstructions store
  | .cancelOrder now user id => cancelOrder now user id store
  | .staffCancelOrder now user id => Staff.cancelOrder now user id store
  | .updateOrderStatus _ id status => Staff.updateOrderStatus id status store

/-- The order collections that sequences of requests produce from the empty one. -/
inductive Reachable : Store → Prop where
  | empty : Reachable []
  | step {store : Store} (op : Op) : Reachable store → Reachable (step store op).2

/-! ## Sample data -/

/-- A sample pending order of user 7 holding one burger. -/
def sampleOrder : Order :=
  { id := 0, orderId := "ORD001", userId := 7,
    items := [.obj [("name", .str "Burger"), ("quantity", .num 2), ("price", .num 5)]],
    pickupTime := .str "12:30", specialInstructions := .str "", status := .pending,
    cancelledAt := none, canceledBy := none }

/-- A sample menu: an available burger and a soup that is switched off. -/
def sampleMenu : Menu := fun v =>
  match v with
  | .str "Burger" => .ok (some { name := "Burger", price := 5, isAvailable := true })
  | .str "Soup" => .ok (some { name := "Soup", price := 3, isAvailable := false })
  | _ => .ok none

/-- The message of the terminal-state rejection of `updateOrderStatus`. -/
def terminalMessage : String := "Cannot update status of cancelled or picked orders"

/-- The message of the invalid-status rejection of `updateOrderStatus`. -/
def invalidStatusMessage : String :=
  "Invalid status. Must be one of: pending, preparing, ready, picked"

/-- The pairs (current status, requested status) that `updateOrderStatus` accepts. -/
def acceptedTransitions : List (Status × Status) :=
  [(.pending, .preparing), (.preparing, .ready), (.ready, .picked)]

/-- A cancelled copy of the sample order. -/
def sampleCancelled : Order :=
  { sampleOrder with status := .cancelled, cancelledAt := some 5, canceledBy := some .student }

/-- A copy of the sample order carrying the identifier `ORD999`. -/
def sampleOrder999 : Order := { sampleOrder with orderId := "ORD999" }

/-- A copy of the sample order carrying the identifier of number `2^53`. -/
def sampleOrderLimit : Order := { sampleOrder with orderId := "ORD9007199254740992" }

/-- A copy of the sample order carrying the identifier of number `10^21`. -/
def sampleOrderHuge : Order := { sampleOrder with orderId := "ORD1000000000000000000000" }

/-- The decimal rendering of an integer, with a leading minus sign when negative. -/
def decimal (x : Int) : String :=
  if x < 0 then "-" ++ Nat.repr x.natAbs else Nat.repr x.natAbs

/-- A picked copy of the sample order. -/
def samplePicked : Order := { sampleOrder with status := .picked }

/-- The owner of the sample order. -/
def sampleOwner : User := { id := 7, role := .student }

/-- Another student, who does not own the sample order. -/
def sampleStranger : User := { id := 8, role := .student }

/-- A staff member. -/
def sampleStaff : User := { id := 3, role := .staff }

/-- A request item naming the available burger. -/
def burgerItem : JsVal :=
  .obj [("name", .str "Burger"), ("quantity", .num 1), ("price", .num 5)]

/-- A request item naming the soup, which is not available. -/
def soupItem : JsVal :=
  .obj [("name", .str "Soup"), ("quantity", .num 1), ("price", .num 3)]

/-- An item names a menu item that does not exist or is not available: its `name`
can be read and the menu lookup for it finds nothing or finds an item that is
switched off. -/
def itemUnavailable (menu : Menu) (item : JsVal) : Bool :=
  match item.get "name" with
  | .ok name =>
    match menu name with
    | .ok none => true
    | .ok (some menuItem) => !menuItem.isAvailable
    | .error _ => false
  | .error _ => false

/-- How a handler may rewrite a stored order `o` into `o'`: the document id, the
identifier and the owner stay, and the rewrite is an edit of a pending order, a
cancellation of an order that is not terminal, or an accepted status transition. -/
def Modified (o o' : Order) : Prop :=
  o'.id = o.id ∧ o'.orderId = o.orderId ∧ o'.userId = o.userId
  ∧ ((o.status = .pending ∧ o'.status = .pending ∧ o'.cancelledAt = o.cancelledAt
        ∧ o'.canceledBy = o.canceledBy ∧ (o'.items = o.items ∨ o'.items ≠ []))
    ∨ (o.status ≠ .cancelled ∧ o.status ≠ .picked ∧ o'.status = .cancelled
        ∧ o'.cancelledAt ≠ none ∧ o'.canceledBy ≠ none ∧ o'.items = o.items)
    ∨ ((o.status, o'.status) ∈ acceptedTransitions ∧ o'.cancelledAt = o.cancelledAt
        ∧ o'.canceledBy = o.canceledBy ∧ o'.items = o.items))

/-- The identifier of the `m`-th order created from an empty collection. -/
def nthOrderId (m : Nat) : String := "ORD" ++ padStart (Nat.repr m) 3 '0'

/-- A copy of the sample order whose identifier carries no number. -/
def sampleMalformed : Order := { sampleOrder with orderId := "XYZ" }

/-- A copy of the sample order whose identifier has letters after the number. -/
def sampleTrailing : Order := { sampleOrder with orderId := "ORD12abc" }

/-- The request that creates the sample order: one burger for 12:30. -/
def sampleCreate : Op :=
  .createOrder sampleMenu sampleOwner (.arr [burgerItem]) (.str "12:30") .undefined

/-- A preparing copy of the sample order. -/
def samplePreparing : Order := { sampleOrder with status := .preparing }

/-- `createOrder` (orderController.js, lines 35-92) with its two accesses to the
order collection kept apart: `generateOrderId` (line 65) reads the collection as
`storeAtRead`, and `Order.create` (line 67) writes to it as `storeAtWrite`, which
differs from the former when other requests inserted orders in between. The
`catch` block answers a duplicate-key error with 400 and does nothing else. -/
def createOrderInterleaved (menu : Menu) (user : User)
    (items pickupTime specialInstructions : JsVal) (storeAtRead storeAtWrite : Store) :
    Response × Store :=
  match items with
  | .arr xs =>
    if xs.length == 0 then
      (.message 400 "Please provide at least one item", storeAtWrite)
    else if !pickupTime.truthy then
      (.message 400 "Please provide pickup time", storeAtWrite)
    else
      match validateItems menu xs with
      | some r => (r, storeAtWrite)
      | none =>
        let orderId := generateOrderId storeAtRead
        match create storeAtWrite orderId user.id xs pickupTime
            (specialInstructions.or (.str "")) with
        | none => (.message 400 "Order ID conflict. Please try again", storeAtWrite)
        | some (order, store') => (.json 201 order, store')
  | _ => (.message 400 "Please provide at least one item", storeAtWrite)

/-- A second sample order, with identifier `ORD002`. -/
def sampleOrder2 : Order := { sampleOrder with id := 1, orderId := "ORD002" }

/-- An item carries a name, a quantity and a price that the handlers accept: each
of the three can be read and is truthy. -/
def itemComplete (item : JsVal) : Bool :=
  match item.get "name", item.get "quantity", item.get "price" with
  | .ok name, .ok quantity, .ok price => name.truthy && quantity.truthy && price.truthy
  | _, _, _ => false

/-- The `name` of an item (`undefined` when it cannot be read). -/
def itemName (item : JsVal) : JsVal :=
  match item.get "name" with
  | .ok name => name
  | .error _ => .undefined

/-- An item passes validation: it is complete and its name resolves to a menu item
that is available. -/
def itemAccepted (menu : Menu) (item : JsVal) : Bool :=
  itemComplete item &&
    match menu (itemName item) with
    | .ok (some menuItem) => menuItem.isAvailable
    | _ => false

/-- A menu with a free item: water at price 0, available. -/
def freeMenu : Menu := fun v =>
  match v with
  | .str "Water" => .ok (some { name := "Water", price := 0, isAvailable := true })
  | .str "Burger" => .ok (some { name := "Burger", price := 5, isAvailable := true })
  | _ => .ok none

/-- A request item for one water at the menu price 0. -/
def waterItem : JsVal :=
  .obj [("name", .str "Water"), ("quantity", .num 1), ("price", .num 0)]

/-- A request item for zero burgers. -/
def zeroBurgerItem : JsVal :=
  .obj [("name", .str "Burger"), ("quantity", .num 0), ("price", .num 5)]

/-! ## Basic facts about the order collection -/

theorem findById_id {store : Store} {id : Nat} {order : Order}
    (h : findById store id = some order) : order.id = id := by
  have := List.find?_some h
  simpa using this

theorem findById_mem {store : Store} {id : Nat} {order : Order}
    (h : findById store id = some order) : order ∈ store :=
  List.mem_of_find?_eq_some h

theorem findById_save {store : Store} {id : Nat} {order : Order} (order' : Order)
    (h : findById store id = some order) (hid : order'.id = id) :
    findById (save order' store) id = some order' := by
  induction store with
  | nil => simp [findById] at h
  | cons o rest ih =>
    have hid' : order.id = id := findById_id h
    by_cases ho : o.id = id
    · simp [save, findById, ho, hid]
    · have h' : findById rest id = some order := by
        simpa [findById, List.find?_cons, ho] using h
      simp [save, findById, ho, hid, List.find?_cons]
      simpa [findById] using ih h'

theorem save_length (order : Order) (store : Store) :
    (save order store).length = store.length := by
  induction store with
  | nil => rfl
  | cons o rest ih =>
    by_cases h : o.id = order.id <;> simp [save, h, ih]

/-! ## Status transitions by staff -/

theorem includes_validStatuses_iff (status : JsVal) :
    includes Staff.validStatuses status = true ↔
      status = .str "pending" ∨ status = .str "preparing" ∨ status = .str "ready"
        ∨ status = .str "picked" := by
  cases status <;> simp [includes, Staff.validStatuses]

theorem updateOrderStatus_of_found {store : Store} {id : Nat} {order : Order}
    (h : findById store id = some order) (r : Status) :
    Staff.updateOrderStatus id (.str r.toString) store =
      if (order.status, r) ∈ acceptedTransitions then
        (.json 200 { order with status := r }, save { order with status := r } store)
      else if r = .cancelled then (.message 400 invalidStatusMessage, store)
      else if order.status = .cancelled ∨ order.status = .picked then
        (.message 400 terminalMessage, store)
      else
        (.message 400 ("Invalid transition: Cannot change status from "
          ++ order.status.toString ++ " to " ++ r.toString), store) := by
  unfold Staff.updateOrderStatus
  rw [h]
  cases hc : order.status <;> cases r <;>
    simp [hc, includes, Staff.validStatuses, Staff.validTransitions, Status.toString,
      JsVal.toStr, Status.ofJs?, Status.ofString?, acceptedTransitions, invalidStatusMessage,
      terminalMessage] <;> decide

/-- C1 (as the code has it): for an order with current status `c` and a requested
status `r` among the five status names, `updateOrderStatus` succeeds and leaves the
order with status `r` exactly when `(c, r)` is pending->preparing, preparing->ready
or ready->picked; for every other pair, the two pairs into `cancelled` included, it
answers with an error and leaves the collection unchanged. -/
theorem updateOrderStatus_transition_table (store : Store) (id : Nat) (order : Order)
    (r : Status) (h : findById store id = some order) :
    ((order.status, r) ∈ acceptedTransitions →
        (Staff.updateOrderStatus id (.str r.toString) store).1.isSuccess = true
        ∧ findById (Staff.updateOrderStatus id (.str r.toString) store).2 id
            = some { order with status := r })
    ∧ ((order.status, r) ∉ acceptedTransitions →
        (Staff.updateOrderStatus id (.str r.toString) store).1.isSuccess = false
        ∧ (Staff.updateOrderStatus id (.str r.toString) store).2 = store) := by
  rw [updateOrderStatus_of_found h r]
  constructor
  · intro hin
    rw [if_pos hin]
    exact ⟨rfl, findById_save _ h (show order.id = id from findById_id h)⟩
  · intro hout
    rw [if_neg hout]
    split_ifs <;> exact ⟨rfl, rfl⟩

/-- Witness of C1 on the sample order: pending to preparing is accepted. -/
theorem updateOrderStatus_transition_table_witness :
    ((sampleOrder.status, Status.preparing) ∈ acceptedTransitions →
        (Staff.updateOrderStatus 0 (.str Status.preparing.toString) [sampleOrder]).1.isSuccess
          = true
        ∧ findById (Staff.updateOrderStatus 0 (.str Status.preparing.toString) [sampleOrder]).2 0
            = some { sampleOrder with status := .preparing })
    ∧ ((sampleOrder.status, Status.preparing) ∉ acceptedTransitions →
        (Staff.updateOrderStatus 0 (.str Status.preparing.toString) [sampleOrder]).1.isSuccess
          = false
        ∧ (Staff.updateOrderStatus 0 (.str Status.preparing.toString) [sampleOrder]).2
            = [sampleOrder]) :=
  updateOrderStatus_transition_table [sampleOrder] 0 sampleOrder .preparing rfl

/-- Counterexample to C1 as stated: the pair pending->cancelled is in the staff column
of the transition table, yet `updateOrderStatus` rejects the request as an invalid
status and the order stays pending. -/
theorem updateOrderStatus_pending_to_cancelled_rejected :
    Staff.updateOrderStatus 0 (.str "cancelled") [sampleOrder]
        = (.message 400 "Invalid status. Must be one of: pending, preparing, ready, picked",
            [sampleOrder])
    ∧ (Staff.updateOrderStatus 0 (.str "cancelled") [sampleOrder]).1.isSuccess = false
    ∧ (findById (Staff.updateOrderStatus 0 (.str "cancelled") [sampleOrder]).2 0).map
        (fun o => o.status) = some Status.pending := by
  refine ⟨rfl, ?_, ?_⟩ <;> decide

/-! ## Terminal orders and `updateOrderStatus` -/

theorem updateOrderStatus_terminalMessage_only {store : Store} {id : Nat} {status : JsVal}
    (h : (Staff.updateOrderStatus id status store).1 = .message 400 terminalMessage) :
    ∃ order, findById store id = some order
      ∧ (order.status = .cancelled ∨ order.status = .picked) := by
  unfold Staff.updateOrderStatus at h
  by_cases hv : includes Staff.validStatuses status = true
  · rw [includes_validStatuses_iff] at hv
    cases hf : findById store id with
    | none =>
      rcases hv with rfl | rfl | rfl | rfl <;>
        simp [hf, includes, Staff.validStatuses, terminalMessage] at h
    | some order =>
      refine ⟨order, rfl, ?_⟩
      cases hc : order.status <;>
        first
        | exact Or.inl rfl
        | exact Or.inr rfl
        | (exfalso
           rcases hv with rfl | rfl | rfl | rfl <;>
             simp [hf, hc, includes, Staff.validStatuses, Staff.validTransitions,
               Status.toString, JsVal.toStr, Status.ofJs?, Status.ofString?,
               terminalMessage] at h)
  · simp [hv, terminalMessage] at h
    exfalso
    revert h
    decide

/-- C2 (as the code has it): for an order whose status is cancelled or picked,
`updateOrderStatus` leaves the collection unchanged and answers a request for one
of the statuses pending, preparing, ready, picked with the terminal-state response
`Cannot update status of cancelled or picked orders`; every other requested value
(the string `cancelled` included) is answered with the invalid-status response
instead. The terminal-state response is dedicated: no request on any collection
receives it unless the addressed order is cancelled or picked. -/
theorem updateOrderStatus_terminal_order (store : Store) (id : Nat) (order : Order)
    (status : JsVal) (h : findById store id = some order)
    (hs : order.status = .cancelled ∨ order.status = .picked) :
    Staff.updateOrderStatus id status store =
        (if includes Staff.validStatuses status then .message 400 terminalMessage
          else .message 400 invalidStatusMessage, store)
    ∧ (∀ (store' : Store) (id' : Nat) (status' : JsVal),
        (Staff.updateOrderStatus id' status' store').1 = .message 400 terminalMessage →
          ∃ o, findById store' id' = some o ∧ (o.status = .cancelled ∨ o.status = .picked)) := by
  refine ⟨?_, fun _ _ _ h' => updateOrderStatus_terminalMessage_only h'⟩
  unfold Staff.updateOrderStatus
  by_cases hv : includes Staff.validStatuses status = true
  · rcases hs with hs | hs <;> simp [hv, h, hs, terminalMessage]
  · simp only [hv, Bool.not_false, if_true, Bool.false_eq_true, if_false]
    rfl

/-- Witness of C2 on a cancelled order and a request for `pending`. -/
theorem updateOrderStatus_terminal_order_witness :
    Staff.updateOrderStatus 0 (.str "pending") [sampleCancelled] =
        (if includes Staff.validStatuses (.str "pending") then .message 400 terminalMessage
          else .message 400 invalidStatusMessage, [sampleCancelled])
    ∧ (∀ (store' : Store) (id' : Nat) (status' : JsVal),
        (Staff.updateOrderStatus id' status' store').1 = .message 400 terminalMessage →
          ∃ o, findById store' id' = some o ∧ (o.status = .cancelled ∨ o.status = .picked)) :=
  updateOrderStatus_terminal_order [sampleCancelled] 0 sampleCancelled (.str "pending") rfl
    (Or.inl rfl)

/-- Counterexample to C2 as stated: a cancelled order and the requested status
`cancelled` get the invalid-status response, not the terminal-state response. -/
theorem updateOrderStatus_terminal_other_response :
    sampleCancelled.status = .cancelled
    ∧ Staff.updateOrderStatus 0 (.str "cancelled") [sampleCancelled]
        = (.message 400 "Invalid status. Must be one of: pending, preparing, ready, picked",
            [sampleCancelled])
    ∧ (Staff.updateOrderStatus 0 (.str "cancelled") [sampleCancelled]).1
        ≠ .message 400 "Cannot update status of cancelled or picked orders" := by
  refine ⟨rfl, rfl, ?_⟩
  intro h
  simp [Staff.updateOrderStatus, includes, Staff.validStatuses] at h
  revert h
  decide

/-! ## Decimal digits -/

theorem digitValue_digitChar {d : Nat} (h : d < 10) : digitValue (Nat.digitChar d) = some d := by
  interval_cases d <;> decide

theorem isWhiteSpace_digitChar {d : Nat} (h : d < 10) :
    isWhiteSpace (Nat.digitChar d) = false := by
  interval_cases d <;> decide

theorem takeDigits_map_digitChar (vs : List Nat) (h : ∀ v ∈ vs, v < 10) :
    takeDigits 10 (vs.map Nat.digitChar) = vs := by
  induction vs with
  | nil => rfl
  | cons v rest ih =>
    have hv : v < 10 := h v (List.mem_cons_self _ _)
    have hrest : ∀ w ∈ rest, w < 10 := fun w hw => h w (List.mem_cons_of_mem _ hw)
    simp [takeDigits, digitValue_digitChar hv, hv, ih hrest]

theorem parseSign_digitChar {d : Nat} (h : d < 10) (cs : List Char) :
    parseSign (Nat.digitChar d :: cs) = (false, Nat.digitChar d :: cs) := by
  interval_cases d <;> rfl

theorem parseRadix_map_digitChar (vs : List Nat) (h : ∀ v ∈ vs, v < 10) :
    parseRadix (vs.map Nat.digitChar) = (10, vs.map Nat.digitChar) := by
  match vs, h with
  | [], _ => rfl
  | [v], h =>
    have hv : v < 10 := h v (List.mem_cons_self _ _)
    interval_cases v <;> rfl
  | v :: w :: rest, h =>
    have hv : v < 10 := h v (List.mem_cons_self _ _)
    have hw : w < 10 := h w (List.mem_cons_of_mem _ (List.mem_cons_self _ _))
    interval_cases v <;> first | rfl | (interval_cases w <;> rfl)

theorem roundToDouble_of_le {n : Nat} (h : n ≤ twoPow53) : roundToDouble n = some n := by
  rcases Nat.lt_or_eq_of_le h with hlt | heq
  · simp [roundToDouble, hlt]
  · subst heq
    decide

theorem JsNum.ofNat_of_le {n : Nat} (h : n ≤ twoPow53) : JsNum.ofNat false n = .int n := by
  simp [JsNum.ofNat, roundToDouble_of_le h]

theorem JsNum.addOne_int_nat {n : Nat} (h : n < twoPow53) :
    JsNum.addOne (.int n) = .int ((n + 1 : Nat) : Int) := by
  have hneg : decide (((n : Int) + 1) < 0) = false := by
    simp only [decide_eq_false_iff_not]
    omega
  have habs : ((n : Int) + 1).natAbs = n + 1 := by omega
  simp only [JsNum.addOne, JsNum.ofInt, hneg, habs]
  exact JsNum.ofNat_of_le h

theorem parseInt_digits (vs : List Nat) (hne : vs ≠ []) (h : ∀ v ∈ vs, v < 10) :
    parseInt ⟨vs.map Nat.digitChar⟩ = JsNum.ofNat false (digitsValue 10 vs) := by
  match vs, hne, h with
  | v :: rest, _, h =>
    have hv : v < 10 := h v (List.mem_cons_self _ _)
    have hdrop : List.dropWhile isWhiteSpace ((v :: rest).map Nat.digitChar)
        = (v :: rest).map Nat.digitChar := by
      simp [List.dropWhile, isWhiteSpace_digitChar hv]
    unfold parseInt
    simp only [hdrop]
    rw [List.map_cons, parseSign_digitChar hv, ← List.map_cons]
    simp only [parseRadix_map_digitChar _ h, takeDigits_map_digitChar _ h]
    simp


theorem digitsValue_append_singleton (vs : List Nat) (d : Nat) :
    digitsValue 10 (vs ++ [d]) = digitsValue 10 vs * 10 + d := by
  simp [digitsValue, List.foldl_append]

theorem toDigitsCore_digits (fuel : Nat) : ∀ (n : Nat) (acc : List Char), n < fuel →
    ∃ vs : List Nat, vs ≠ [] ∧ (∀ v ∈ vs, v < 10) ∧ digitsValue 10 vs = n
      ∧ Nat.toDigitsCore 10 fuel n acc = vs.map Nat.digitChar ++ acc := by
  induction fuel with
  | zero => intro n acc h; omega
  | succ f ih =>
    intro n acc h
    by_cases h0 : n / 10 = 0
    · refine ⟨[n % 10], by simp, ?_, ?_, ?_⟩
      · intro v hv
        simp at hv
        omega
      · simp [digitsValue]; omega
      · simp [Nat.toDigitsCore, h0]
    · obtain ⟨vs, hne, hlt, hval, hcore⟩ := ih (n / 10) (Nat.digitChar (n % 10) :: acc) (by omega)
      refine ⟨vs ++ [n % 10], by simp, ?_, ?_, ?_⟩
      · intro v hv
        rcases List.mem_append.1 hv with hv | hv
        · exact hlt v hv
        · simp at hv; omega
      · rw [digitsValue_append_singleton, hval]; omega
      · simp [Nat.toDigitsCore, h0, hcore]

theorem repr_digits (n : Nat) :
    ∃ vs : List Nat, vs ≠ [] ∧ (∀ v ∈ vs, v < 10) ∧ digitsValue 10 vs = n
      ∧ (Nat.repr n).data = vs.map Nat.digitChar := by
  obtain ⟨vs, hne, hlt, hval, hcore⟩ := toDigitsCore_digits (n + 1) n [] (by omega)
  exact ⟨vs, hne, hlt, hval, by simpa [Nat.repr, Nat.toDigits, List.asString] using hcore⟩

theorem digitsValue_replicate_zero (k : Nat) (vs : List Nat) :
    digitsValue 10 (List.replicate k 0 ++ vs) = digitsValue 10 vs := by
  induction k with
  | zero => simp
  | succ k ih =>
    simpa [digitsValue, List.replicate_succ] using ih

theorem foldl_digits_lt (vs : List Nat) (h : ∀ v ∈ vs, v < 10) : ∀ acc : Nat,
    vs.foldl (fun a d => a * 10 + d) acc < (acc + 1) * 10 ^ vs.length := by
  induction vs with
  | nil => intro acc; simp
  | cons v rest ih =>
    intro acc
    have hv : v < 10 := h v (List.mem_cons_self _ _)
    have hrest : ∀ w ∈ rest, w < 10 := fun w hw => h w (List.mem_cons_of_mem _ hw)
    have := ih hrest (acc * 10 + v)
    simp only [List.foldl_cons, List.length_cons, pow_succ]
    calc List.foldl (fun a d => a * 10 + d) (acc * 10 + v) rest
        < (acc * 10 + v + 1) * 10 ^ rest.length := this
      _ ≤ ((acc + 1) * 10) * 10 ^ rest.length := by
          apply Nat.mul_le_mul_right; omega
      _ = (acc + 1) * (10 ^ rest.length * 10) := by ring

theorem repr_length_ge_four {m : Nat} (h : 1000 ≤ m) : 4 ≤ (Nat.repr m).length := by
  obtain ⟨vs, _, hlt, hval, hdata⟩ := repr_digits m
  have hlen : (Nat.repr m).length = vs.length := by
    simp [String.length, hdata]
  by_contra hcon
  have h3 : vs.length ≤ 3 := by omega
  have hb := foldl_digits_lt vs hlt 0
  have hv : digitsValue 10 vs < 10 ^ vs.length := by simpa [digitsValue] using hb
  have : 10 ^ vs.length ≤ 10 ^ 3 := Nat.pow_le_pow_right (by omega) h3
  omega


/-! ## `generateOrderId` -/

theorem orderNumber_padded (k n : Nat) :
    orderNumber ("ORD" ++ String.mk (List.replicate k '0') ++ Nat.repr n)
      = JsNum.ofNat false n := by
  obtain ⟨vs, hne, hlt, hval, hdata⟩ := repr_digits n
  have hrep : replaceFirst ("ORD" ++ String.mk (List.replicate k '0') ++ Nat.repr n) "ORD" ""
      = ⟨(List.replicate k 0 ++ vs).map Nat.digitChar⟩ := by
    have hz : List.replicate k '0' = (List.replicate k 0).map Nat.digitChar := by
      simp [Nat.digitChar]
    have hdata' : Nat.toDigits 10 n = vs.map Nat.digitChar := by
      simpa [Nat.repr, List.asString] using hdata
    simp [replaceFirst, replaceFirstChars, String.data_append, List.isPrefixOf, hdata', hz]
  have hall : ∀ v ∈ List.replicate k 0 ++ vs, v < 10 := by
    intro v hv
    rcases List.mem_append.1 hv with hv | hv
    · have := List.eq_of_mem_replicate hv
      omega
    · exact hlt v hv
  unfold orderNumber
  rw [hrep, parseInt_digits _ (by simp [hne]) hall, digitsValue_replicate_zero, hval]

theorem numberToString_natCast {m : Nat} (h : m ≤ twoPow53) :
    numberToString (.int (m : Int)) = Nat.repr m := by
  rcases Nat.lt_or_eq_of_le h with hlt | heq
  · have : ¬ ((m : Int) < 0) := by omega
    simp [numberToString, magnitudeToString, this, hlt]
  · subst heq
    rfl

theorem generateOrderId_of_last {store : Store} {last : Order} (k n : Nat)
    (hn : n < twoPow53) (hlast : lastOrder store = some last)
    (hid : last.orderId = "ORD" ++ String.mk (List.replicate k '0') ++ Nat.repr n) :
    generateOrderId store = "ORD" ++ padStart (Nat.repr (n + 1)) 3 '0' := by
  unfold generateOrderId
  rw [hlast]
  simp only [hid, orderNumber_padded, JsNum.ofNat_of_le (Nat.le_of_lt hn),
    JsNum.addOne_int_nat hn]
  rw [numberToString_natCast (by omega)]

theorem generateOrderId_of_last_limit {store : Store} {last : Order} (k : Nat)
    (hlast : lastOrder store = some last)
    (hid : last.orderId = "ORD" ++ String.mk (List.replicate k '0') ++ Nat.repr twoPow53) :
    generateOrderId store = "ORD" ++ padStart (Nat.repr twoPow53) 3 '0' := by
  unfold generateOrderId
  rw [hlast]
  simp only [hid, orderNumber_padded, JsNum.ofNat_of_le (Nat.le_refl _)]
  rfl

theorem padStart_zero (s : String) :
    padStart s 3 '0' = String.mk (List.replicate (3 - s.length) '0') ++ s := by
  apply String.ext
  simp [padStart, String.data_append]

/-- C3 (as the code has it): `generateOrderId` returns `ORD001` on an empty
collection; when the most recently created order has identifier `ORD` followed by
`k` zeros and the decimal digits of a number `n` below `2^53 = 9007199254740992`, it
returns `ORD` followed by `n + 1` in decimal, left-padded with zeros to width three
and never cut: from `n + 1 = 1000` on all digits are kept. -/
theorem generateOrderId_next (store : Store) (last : Order) (k n : Nat)
    (hn : n < twoPow53) (hlast : lastOrder store = some last)
    (hid : last.orderId = "ORD" ++ String.mk (List.replicate k '0') ++ Nat.repr n) :
    generateOrderId [] = "ORD001"
    ∧ generateOrderId store
        = "ORD" ++ (String.mk (List.replicate (3 - (Nat.repr (n + 1)).length) '0')
            ++ Nat.repr (n + 1))
    ∧ (1000 ≤ n + 1 → generateOrderId store = "ORD" ++ Nat.repr (n + 1)) := by
  have hgen := generateOrderId_of_last k n hn hlast hid
  rw [padStart_zero] at hgen
  refine ⟨rfl, hgen, fun hbig => ?_⟩
  have hlen := repr_length_ge_four hbig
  have h0 : 3 - (Nat.repr (n + 1)).length = 0 := by omega
  rw [hgen, h0]
  apply String.ext
  simp [String.data_append]

/-- Witness of C3: after `ORD999` comes `ORD1000`. -/
theorem generateOrderId_next_witness :
    (999 < twoPow53 ∧ lastOrder [sampleOrder999] = some sampleOrder999
      ∧ sampleOrder999.orderId = "ORD" ++ String.mk (List.replicate 0 '0') ++ Nat.repr 999)
    ∧ (generateOrderId [] = "ORD001"
      ∧ generateOrderId [sampleOrder999]
          = "ORD" ++ (String.mk (List.replicate (3 - (Nat.repr (999 + 1)).length) '0')
              ++ Nat.repr (999 + 1))
      ∧ (1000 ≤ 999 + 1 → generateOrderId [sampleOrder999] = "ORD" ++ Nat.repr (999 + 1))) :=
  ⟨⟨by decide, rfl, by decide⟩,
    generateOrderId_next [sampleOrder999] sampleOrder999 0 999 (by decide) rfl (by decide)⟩

/-- Counterexample to C3 as stated: the numbers are doubles. After
`ORD9007199254740992` (`n = 2^53`) the sum `n + 1` rounds back to `n` and the same
identifier is returned again, and after `ORD1000000000000000000000` (`n = 10^21`)
the number is printed in exponent notation. -/
theorem generateOrderId_double_limit :
    sampleOrderLimit.orderId = "ORD" ++ Nat.repr 9007199254740992
    ∧ generateOrderId [sampleOrderLimit] = "ORD9007199254740992"
    ∧ generateOrderId [sampleOrderLimit] ≠ "ORD" ++ Nat.repr (9007199254740992 + 1)
    ∧ sampleOrderHuge.orderId = "ORD" ++ Nat.repr 1000000000000000000000
    ∧ generateOrderId [sampleOrderHuge] = "ORD1e+21" := by
  refine ⟨by decide, by decide, by decide, by decide, by decide⟩

/-! ## Ownership and terminal orders -/

/-- C8: when the requesting user is not the owner of an existing order, `updateOrder`
and the student `cancelOrder` both answer 403 `Not authorized` and leave the
collection unchanged, whatever the status of the order and whatever the patch. -/
theorem not_owner_forbidden (store : Store) (id : Nat) (order : Order) (user : User)
    (menu : Menu) (items pickupTime specialInstructions : JsVal) (now : Nat)
    (h : findById store id = some order) (hu : user.id ≠ order.userId) :
    updateOrder menu user id items pickupTime specialInstructions store
        = (.message 403 "Not authorized", store)
    ∧ cancelOrder now user id store = (.message 403 "Not authorized", store) := by
  have hne : (order.userId != user.id) = true := by
    simpa [bne_iff_ne] using fun h' : order.userId = user.id => hu h'.symm
  constructor
  · unfold updateOrder
    simp only [h, hne, if_true]
  · unfold cancelOrder
    simp only [h, hne, if_true]

/-- Witness of C8: a stranger addresses the picked sample order. -/
theorem not_owner_forbidden_witness :
    (findById [samplePicked] 0 = some samplePicked ∧ sampleStranger.id ≠ samplePicked.userId)
    ∧ (updateOrder sampleMenu sampleStranger 0 (.arr [burgerItem]) (.str "13:00") .undefined
          [samplePicked] = (.message 403 "Not authorized", [samplePicked])
      ∧ cancelOrder 9 sampleStranger 0 [samplePicked]
          = (.message 403 "Not authorized", [samplePicked])) :=
  ⟨⟨rfl, by decide⟩,
    not_owner_forbidden [samplePicked] 0 samplePicked sampleStranger sampleMenu
      (.arr [burgerItem]) (.str "13:00") .undefined 9 rfl (by decide)⟩

/-- C7: on an order whose status is picked or cancelled, each of `updateOrder`, the
student `cancelOrder`, the staff `cancelOrder` and `updateOrderStatus` answers with
an error and leaves the whole collection, hence every field of the order,
unchanged, for every user and all arguments. -/
theorem terminal_order_frozen (store : Store) (id : Nat) (order : Order) (user : User)
    (menu : Menu) (items pickupTime specialInstructions status : JsVal) (now : Nat)
    (h : findById store id = some order)
    (hs : order.status = .picked ∨ order.status = .cancelled) :
    ((updateOrder menu user id items pickupTime specialInstructions store).1.isSuccess = false
      ∧ (updateOrder menu user id items pickupTime specialInstructions store).2 = store)
    ∧ ((cancelOrder now user id store).1.isSuccess = false
      ∧ (cancelOrder now user id store).2 = store)
    ∧ ((Staff.cancelOrder now user id store).1.isSuccess = false
      ∧ (Staff.cancelOrder now user id store).2 = store)
    ∧ ((Staff.updateOrderStatus id status store).1.isSuccess = false
      ∧ (Staff.updateOrderStatus id status store).2 = store) := by
  have hnp : (order.status != .pending) = true := by
    rcases hs with hs | hs <;> simp [hs]
  refine ⟨?_, ?_, ?_, ?_⟩
  · by_cases hu : (order.userId != user.id) = true <;>
      simp [updateOrder, h, hu, hnp, Response.isSuccess, Response.status]
  · by_cases hu : (order.userId != user.id) = true <;>
      simp [cancelOrder, h, hu, hnp, Response.isSuccess, Response.status]
  · rcases hs with hs | hs <;>
      simp [Staff.cancelOrder, h, hs, Response.isSuccess, Response.status]
  · by_cases hv : includes Staff.validStatuses status = true <;> rcases hs with hs | hs <;>
      simp [Staff.updateOrderStatus, hv, h, hs, Response.isSuccess, Response.status]

/-- Witness of C7: the owner and a staff member address the picked sample order. -/
theorem terminal_order_frozen_witness :
    (findById [samplePicked] 0 = some samplePicked
      ∧ (samplePicked.status = .picked ∨ samplePicked.status = .cancelled))
    ∧ (((updateOrder sampleMenu sampleOwner 0 (.arr [burgerItem]) (.str "13:00") (.str "hot")
            [samplePicked]).1.isSuccess = false
        ∧ (updateOrder sampleMenu sampleOwner 0 (.arr [burgerItem]) (.str "13:00") (.str "hot")
            [samplePicked]).2 = [samplePicked])
      ∧ ((cancelOrder 9 sampleOwner 0 [samplePicked]).1.isSuccess = false
        ∧ (cancelOrder 9 sampleOwner 0 [samplePicked]).2 = [samplePicked])
      ∧ ((Staff.cancelOrder 9 sampleOwner 0 [samplePicked]).1.isSuccess = false
        ∧ (Staff.cancelOrder 9 sampleOwner 0 [samplePicked]).2 = [samplePicked])
      ∧ ((Staff.updateOrderStatus 0 (.str "ready") [samplePicked]).1.isSuccess = false
        ∧ (Staff.updateOrderStatus 0 (.str "ready") [samplePicked]).2 = [samplePicked])) :=
  ⟨⟨rfl, Or.inl rfl⟩,
    terminal_order_frozen [samplePicked] 0 samplePicked sampleOwner sampleMenu
      (.arr [burgerItem]) (.str "13:00") (.str "hot") (.str "ready") 9 rfl (Or.inl rfl)⟩

/-! ## Cancellation by the owner -/

/-- C10: on a pending order, `cancelOrder` called by the owner succeeds (200) and
stores the order with status cancelled, `cancelledAt` stamped with the time of the
request and `canceledBy` equal to student; identifier, owner, items, pickup time and
special instructions are as before. -/
theorem cancelOrder_by_owner (store : Store) (id : Nat) (order : Order) (user : User)
    (now : Nat) (h : findById store id = some order) (hu : user.id = order.userId)
    (hs : order.status = .pending) :
    ∃ order' : Order,
      (cancelOrder now user id store).1 = .json 200 order'
      ∧ findById (cancelOrder now user id store).2 id = some order'
      ∧ order'.status = .cancelled ∧ order'.cancelledAt = some now
      ∧ order'.canceledBy = some .student
      ∧ order'.orderId = order.orderId ∧ order'.userId = order.userId
      ∧ order'.items = order.items ∧ order'.pickupTime = order.pickupTime
      ∧ order'.specialInstructions = order.specialInstructions := by
  have hres : cancelOrder now user id store
      = (.json 200 { order with
            status := .cancelled, cancelledAt := some now, canceledBy := some .student },
          save { order with
            status := .cancelled, cancelledAt := some now, canceledBy := some .student }
            store) := by
    unfold cancelOrder
    simp [h, hu, hs]
  rw [hres]
  exact ⟨_, rfl, findById_save _ h (show order.id = id from findById_id h),
    rfl, rfl, rfl, rfl, rfl, rfl, rfl, rfl⟩

/-- Witness of C10: the owner cancels the pending sample order. -/
theorem cancelOrder_by_owner_witness :
    (findById [sampleOrder] 0 = some sampleOrder ∧ sampleOwner.id = sampleOrder.userId
      ∧ sampleOrder.status = .pending)
    ∧ ∃ order' : Order,
      (cancelOrder 9 sampleOwner 0 [sampleOrder]).1 = .json 200 order'
      ∧ findById (cancelOrder 9 sampleOwner 0 [sampleOrder]).2 0 = some order'
      ∧ order'.status = .cancelled ∧ order'.cancelledAt = some 9
      ∧ order'.canceledBy = some .student
      ∧ order'.orderId = sampleOrder.orderId ∧ order'.userId = sampleOrder.userId
      ∧ order'.items = sampleOrder.items ∧ order'.pickupTime = sampleOrder.pickupTime
      ∧ order'.specialInstructions = sampleOrder.specialInstructions :=
  ⟨⟨rfl, rfl, rfl⟩, cancelOrder_by_owner [sampleOrder] 0 sampleOrder sampleOwner 9 rfl rfl rfl⟩

/-! ## Item validation -/

theorem validateItems_cons_none {menu : Menu} {item : JsVal} {rest : List JsVal}
    (h : validateItems menu (item :: rest) = none) :
    itemUnavailable menu item = false ∧ validateItems menu rest = none := by
  rw [validateItems] at h
  unfold itemUnavailable
  repeat' (split at h)
  all_goals first
    | (exact absurd h (by simp))
    | (simp_all)

theorem validateItems_of_unavailable {menu : Menu} {xs : List JsVal}
    (h : ∃ item ∈ xs, itemUnavailable menu item = true) : validateItems menu xs ≠ none := by
  induction xs with
  | nil => simp at h
  | cons x rest ih =>
    intro hnone
    obtain ⟨hx, hrest⟩ := validateItems_cons_none hnone
    obtain ⟨item, hmem, hbad⟩ := h
    rcases List.mem_cons.1 hmem with rfl | hmem
    · rw [hx] at hbad
      exact absurd hbad (by simp)
    · exact ih ⟨item, hmem, hbad⟩ hrest

theorem validateItems_isSuccess {menu : Menu} {xs : List JsVal} {r : Response}
    (h : validateItems menu xs = some r) : r.isSuccess = false := by
  induction xs with
  | nil => simp [validateItems] at h
  | cons x rest ih =>
    rw [validateItems] at h
    repeat' (split at h)
    all_goals first
      | (exact ih h)
      | (injection h with h; subst h; rfl)

/-- C9: when some item of the submitted list names a menu item that does not exist
or is not available, `createOrder` answers with an error and creates nothing, and
`updateOrder` with these replacement items answers with an error and writes
nothing: the collection is exactly as before in both cases, also when earlier items
are valid and the patch carries a pickup time and instructions. -/
theorem unavailable_item_aborts (menu : Menu) (user : User) (id : Nat) (xs : List JsVal)
    (pickupTime specialInstructions : JsVal) (store : Store)
    (h : ∃ item ∈ xs, itemUnavailable menu item = true) :
    ((createOrder menu user (.arr xs) pickupTime specialInstructions store).1.isSuccess = false
      ∧ (createOrder menu user (.arr xs) pickupTime specialInstructions store).2 = store)
    ∧ ((updateOrder menu user id (.arr xs) pickupTime specialInstructions store).1.isSuccess
          = false
      ∧ (updateOrder menu user id (.arr xs) pickupTime specialInstructions store).2 = store) := by
  have hv := validateItems_of_unavailable h
  cases hval : validateItems menu xs with
  | none => exact absurd hval hv
  | some r =>
    have hr := validateItems_isSuccess hval
    constructor
    · unfold createOrder
      simp only [hval]
      split_ifs <;> first | exact ⟨rfl, rfl⟩ | exact ⟨hr, rfl⟩
    · unfold updateOrder
      cases hf : findById store id with
      | none => exact ⟨rfl, rfl⟩
      | some order =>
        simp only [replaceItems, hval, JsVal.truthy, if_true]
        split_ifs <;> first | exact ⟨rfl, rfl⟩ | exact ⟨hr, rfl⟩

/-- Witness of C9: a valid burger followed by the unavailable soup. -/
theorem unavailable_item_aborts_witness :
    (∃ item ∈ [burgerItem, soupItem], itemUnavailable sampleMenu item = true)
    ∧ (((createOrder sampleMenu sampleOwner (.arr [burgerItem, soupItem]) (.str "13:00")
            (.str "hot") [sampleOrder]).1.isSuccess = false
        ∧ (createOrder sampleMenu sampleOwner (.arr [burgerItem, soupItem]) (.str "13:00")
            (.str "hot") [sampleOrder]).2 = [sampleOrder])
      ∧ ((updateOrder sampleMenu sampleOwner 0 (.arr [burgerItem, soupItem]) (.str "13:00")
            (.str "hot") [sampleOrder]).1.isSuccess = false
        ∧ (updateOrder sampleMenu sampleOwner 0 (.arr [burgerItem, soupItem]) (.str "13:00")
            (.str "hot") [sampleOrder]).2 = [sampleOrder])) :=
  ⟨⟨soupItem, by simp, rfl⟩,
    unavailable_item_aborts sampleMenu sampleOwner 0 [burgerItem, soupItem] (.str "13:00")
      (.str "hot") [sampleOrder] ⟨soupItem, by simp, rfl⟩⟩

/-! ## What one request can do to the collection -/

theorem createOrder_effect (menu : Menu) (user : User)
    (items pickupTime specialInstructions : JsVal) (store : Store) :
    ((createOrder menu user items pickupTime specialInstructions store).1.isSuccess = false
      ∧ (createOrder menu user items pickupTime specialInstructions store).2 = store)
    ∨ ∃ order : Order,
        createOrder menu user items pickupTime specialInstructions store
          = (.json 201 order, store ++ [order])
        ∧ order.status = .pending ∧ order.items ≠ [] ∧ order.cancelledAt = none
        ∧ order.canceledBy = none ∧ order.orderId = generateOrderId store
        ∧ (∀ o ∈ store, o.orderId ≠ order.orderId) := by
  unfold createOrder
  cases items with
  | arr xs =>
    simp only
    by_cases hlen : (xs.length == 0) = true
    · left; simp [hlen, Response.isSuccess, Response.status]
    · by_cases hp : (!pickupTime.truthy) = true
      · left; simp [hlen, hp, Response.isSuccess, Response.status]
      · simp only [hlen, hp, if_false]
        cases hval : validateItems menu xs with
        | some r => left; exact ⟨validateItems_isSuccess hval, rfl⟩
        | none =>
          simp only [create]
          by_cases hdup : store.any (fun o => o.orderId == generateOrderId store) = true
          · left; simp [hdup, Response.isSuccess, Response.status]
          · right
            simp only [hdup, if_false]
            have hne : xs ≠ [] := by simpa using hlen
            refine ⟨_, rfl, rfl, hne, rfl, rfl, rfl, ?_⟩
            intro o ho heq
            apply hdup
            simp only [List.any_eq_true]
            exact ⟨o, ho, by simpa using heq⟩
  | undefined => left; exact ⟨rfl, rfl⟩
  | null => left; exact ⟨rfl, rfl⟩
  | bool b => left; exact ⟨rfl, rfl⟩
  | num n => left; exact ⟨rfl, rfl⟩
  | fraction text => left; exact ⟨rfl, rfl⟩
  | str s => left; exact ⟨rfl, rfl⟩
  | obj fields => left; exact ⟨rfl, rfl⟩

theorem replaceItems_error {menu : Menu} {items : JsVal} {order : Order} {r : Response}
    (h : replaceItems menu items order = .error r) : r.isSuccess = false := by
  unfold replaceItems at h
  split at h
  · split at h
    · split at h
      · injection h with h; subst h; rfl
      · split at h
        · next r' hval =>
          injection h with h; subst h
          exact validateItems_isSuccess hval
        · exact absurd h (by simp)
    · injection h with h; subst h; rfl
  · exact absurd h (by simp)

theorem replaceItems_ok {menu : Menu} {items : JsVal} {order order1 : Order}
    (h : replaceItems menu items order = .ok order1) :
    order1 = order ∨ ∃ xs : List JsVal, xs ≠ [] ∧ validateItems menu xs = none
      ∧ items = .arr xs ∧ order1 = { order with items := xs } := by
  unfold replaceItems at h
  split at h
  · split at h
    · next xs _ =>
      split at h
      · exact absurd h (by simp)
      · next hlen =>
        split at h
        · exact absurd h (by simp)
        · next hval =>
          injection h with h
          exact Or.inr ⟨xs, by simpa using hlen, hval, rfl, h.symm⟩
    · exact absurd h (by simp)
  · injection h with h
    exact Or.inl h.symm

theorem updateOrder_effect (menu : Menu) (user : User) (id : Nat)
    (items pickupTime specialInstructions : JsVal) (store : Store) :
    ((updateOrder menu user id items pickupTime specialInstructions store).1.isSuccess = false
      ∧ (updateOrder menu user id items pickupTime specialInstructions store).2 = store)
    ∨ ∃ o o' : Order, findById store id = some o
        ∧ updateOrder menu user id items pickupTime specialInstructions store
            = (.json 200 o', save o' store)
        ∧ Modified o o' := by
  unfold updateOrder
  cases hf : findById store id with
  | none => left; exact ⟨rfl, rfl⟩
  | some order =>
    simp only
    by_cases hu : (order.userId != user.id) = true
    · left; simp [hu, Response.isSuccess, Response.status]
    · by_cases hs : (order.status != .pending) = true
      · left; simp [hu, hs, Response.isSuccess, Response.status]
      · have hpend : order.status = .pending := by simpa using hs
        simp only [hu, hs, if_false]
        cases hchk : replaceItems menu items order with
        | error r => left; exact ⟨replaceItems_error hchk, rfl⟩
        | ok order1 =>
          right
          refine ⟨order, _, rfl, rfl, ?_⟩
          have h1 : order1.id = order.id ∧ order1.orderId = order.orderId
              ∧ order1.userId = order.userId ∧ order1.status = .pending
              ∧ order1.cancelledAt = order.cancelledAt ∧ order1.canceledBy = order.canceledBy
              ∧ (order1.items = order.items ∨ order1.items ≠ []) := by
            rcases replaceItems_ok hchk with rfl | ⟨xs, hne, _, _, rfl⟩
            · exact ⟨rfl, rfl, rfl, hpend, rfl, rfl, Or.inl rfl⟩
            · exact ⟨rfl, rfl, rfl, hpend, rfl, rfl, Or.inr hne⟩
          obtain ⟨a1, a2, a3, a4, a5, a6, a7⟩ := h1
          unfold Modified
          refine ⟨?_, ?_, ?_, Or.inl ⟨hpend, ?_, ?_, ?_, ?_⟩⟩ <;>
            (split <;> split <;> simp_all)

theorem cancelOrder_effect (now : Nat) (user : User) (id : Nat) (store : Store) :
    ((cancelOrder now user id store).1.isSuccess = false
      ∧ (cancelOrder now user id store).2 = store)
    ∨ ∃ o o' : Order, findById store id = some o
        ∧ cancelOrder now user id store = (.json 200 o', save o' store)
        ∧ Modified o o' := by
  unfold cancelOrder
  cases hf : findById store id with
  | none => left; exact ⟨rfl, rfl⟩
  | some order =>
    simp only
    by_cases hu : (order.userId != user.id) = true
    · left; simp [hu, Response.isSuccess, Response.status]
    · by_cases hs : (order.status != .pending) = true
      · left; simp [hu, hs, Response.isSuccess, Response.status]
      · have hpend : order.status = .pending := by simpa using hs
        right
        refine ⟨order, { order with
          status := .cancelled, cancelledAt := some now, canceledBy := some .student },
          rfl, ?_, ?_⟩
        · simp [hu, hpend]
        · simp [Modified, hpend]

theorem staffCancelOrder_effect (now : Nat) (user : User) (id : Nat) (store : Store) :
    ((Staff.cancelOrder now user id store).1.isSuccess = false
      ∧ (Staff.cancelOrder now user id store).2 = store)
    ∨ ∃ o o' : Order, findById store id = some o
        ∧ Staff.cancelOrder now user id store = (.json 200 o', save o' store)
        ∧ Modified o o' := by
  unfold Staff.cancelOrder
  cases hf : findById store id with
  | none => left; exact ⟨rfl, rfl⟩
  | some order =>
    simp only
    by_cases hc : order.status = .cancelled
    · left; simp [hc, Response.isSuccess, Response.status]
    · by_cases hp : order.status = .picked
      · left; simp [hp, Response.isSuccess, Response.status]
      · right
        refine ⟨order, { order with
          status := .cancelled, cancelledAt := some now, canceledBy := some user.role },
          rfl, ?_, ?_⟩
        · simp [hc, hp]
        · simp [Modified, hc, hp]

theorem updateOrderStatus_effect (id : Nat) (status : JsVal) (store : Store) :
    ((Staff.updateOrderStatus id status store).1.isSuccess = false
      ∧ (Staff.updateOrderStatus id status store).2 = store)
    ∨ ∃ o o' : Order, findById store id = some o
        ∧ Staff.updateOrderStatus id status store = (.json 200 o', save o' store)
        ∧ Modified o o' := by
  by_cases hv : includes Staff.validStatuses status = true
  · cases hf : findById store id with
    | none =>
      left
      simp [Staff.updateOrderStatus, hv, hf, Response.isSuccess, Response.status]
    | some order =>
      have hr : ∃ r : Status, status = .str r.toString := by
        rcases (includes_validStatuses_iff status).1 hv with h | h | h | h
        · exact ⟨.pending, h⟩
        · exact ⟨.preparing, h⟩
        · exact ⟨.ready, h⟩
        · exact ⟨.picked, h⟩
      obtain ⟨r, rfl⟩ := hr
      rw [updateOrderStatus_of_found hf r]
      by_cases hin : (order.status, r) ∈ acceptedTransitions
      · right
        refine ⟨order, _, rfl, by rw [if_pos hin], ?_⟩
        exact ⟨rfl, rfl, rfl, Or.inr (Or.inr ⟨hin, rfl, rfl, rfl⟩)⟩
      · left
        rw [if_neg hin]
        split_ifs <;> exact ⟨rfl, rfl⟩
  · left
    simp [Staff.updateOrderStatus, hv, Response.isSuccess, Response.status]

theorem step_effect (store : Store) (op : Op) :
    (step store op).2 = store
    ∨ (∃ order : Order, (step store op).2 = store ++ [order]
        ∧ order.status = .pending ∧ order.items ≠ [] ∧ order.cancelledAt = none
        ∧ order.canceledBy = none ∧ order.orderId = generateOrderId store
        ∧ (∀ o ∈ store, o.orderId ≠ order.orderId))
    ∨ ∃ (id : Nat) (o o' : Order), findById store id = some o
        ∧ (step store op).2 = save o' store ∧ Modified o o' := by
  cases op with
  | createOrder menu user items pickupTime specialInstructions =>
    rcases createOrder_effect menu user items pickupTime specialInstructions store with
      h | ⟨order, h, h1, h2, h3, h4, h5, h6⟩
    · exact Or.inl h.2
    · exact Or.inr (Or.inl ⟨order, by simp [step, h], h1, h2, h3, h4, h5, h6⟩)
  | updateOrder menu user id items pickupTime specialInstructions =>
    rcases updateOrder_effect menu user id items pickupTime specialInstructions store with
      h | ⟨o, o', hf, h, hm⟩
    · exact Or.inl h.2
    · exact Or.inr (Or.inr ⟨id, o, o', hf, by simp [step, h], hm⟩)
  | cancelOrder now user id =>
    rcases cancelOrder_effect now user id store with h | ⟨o, o', hf, h, hm⟩
    · exact Or.inl h.2
    · exact Or.inr (Or.inr ⟨id, o, o', hf, by simp [step, h], hm⟩)
  | staffCancelOrder now user id =>
    rcases staffCancelOrder_effect now user id store with h | ⟨o, o', hf, h, hm⟩
    · exact Or.inl h.2
    · exact Or.inr (Or.inr ⟨id, o, o', hf, by simp [step, h], hm⟩)
  | updateOrderStatus user id status =>
    rcases updateOrderStatus_effect id status store with h | ⟨o, o', hf, h, hm⟩
    · exact Or.inl h.2
    · exact Or.inr (Or.inr ⟨id, o, o', hf, by simp [step, h], hm⟩)

/-! ## Invariants of reachable collections -/

theorem mem_save {order x : Order} {store : Store} (h : x ∈ save order store) :
    x = order ∨ x ∈ store := by
  induction store with
  | nil => simp [save] at h
  | cons o rest ih =>
    by_cases ho : o.id = order.id
    · have h' : x = order ∨ x ∈ rest := by simpa [save, ho] using h
      rcases h' with h' | h'
      · exact Or.inl h'
      · exact Or.inr (List.mem_cons_of_mem _ h')
    · have h' : x = o ∨ x ∈ save order rest := by simpa [save, ho] using h
      rcases h' with h' | h'
      · exact Or.inr (h' ▸ List.mem_cons_self _ _)
      · rcases ih h' with h'' | h''
        · exact Or.inl h''
        · exact Or.inr (List.mem_cons_of_mem _ h'')

theorem save_map_eq {α : Type} (f : Order → α) {store : Store} {id : Nat} {o o' : Order}
    (h : findById store id = some o) (hid : o'.id = o.id) (hf : f o' = f o) :
    (save o' store).map f = store.map f := by
  induction store with
  | nil => rfl
  | cons x rest ih =>
    have hoid : o.id = id := findById_id h
    by_cases hx : x.id = id
    · have hxo : x = o := by
        simpa [findById, List.find?_cons, hx] using h
      subst hxo
      simp [save, hid, hf]
    · have h' : findById rest id = some o := by
        simpa [findById, List.find?_cons, hx] using h
      have hx' : ¬ x.id = o'.id := by rw [hid, hoid]; exact hx
      simp [save, hx', ih h']

theorem reachable_forall (P : Order → Prop)
    (hnew : ∀ order : Order, order.status = .pending → order.items ≠ [] →
      order.cancelledAt = none → order.canceledBy = none → P order)
    (hmod : ∀ o o' : Order, P o → Modified o o' → P o')
    {store : Store} (hr : Reachable store) : ∀ o ∈ store, P o := by
  induction hr with
  | empty => intro o ho; simp at ho
  | @step store op _ ih =>
    rcases step_effect store op with h | ⟨order, h, h1, h2, h3, h4, _⟩ | ⟨id, o, o', hf, h, hm⟩
    · rw [h]; exact ih
    · rw [h]
      intro x hx
      rcases List.mem_append.1 hx with hx | hx
      · exact ih x hx
      · have : x = order := by simpa using hx
        subst this
        exact hnew x h1 h2 h3 h4
    · rw [h]
      intro x hx
      rcases mem_save hx with hx | hx
      · subst hx
        exact hmod o x (ih o (findById_mem hf)) hm
      · exact ih x hx

theorem nthOrderId_eq (m : Nat) :
    nthOrderId m
      = "ORD" ++ String.mk (List.replicate (3 - (Nat.repr m).length) '0') ++ Nat.repr m := by
  rw [nthOrderId, padStart_zero, String.append_assoc]

theorem orderNumber_nthOrderId {m : Nat} (h : m ≤ twoPow53) :
    orderNumber (nthOrderId m) = .int (m : Int) := by
  rw [nthOrderId_eq, orderNumber_padded, JsNum.ofNat_of_le h]

theorem nthOrderId_injective {a b : Nat} (ha : a ≤ twoPow53) (hb : b ≤ twoPow53)
    (h : nthOrderId a = nthOrderId b) : a = b := by
  have := congrArg orderNumber h
  rw [orderNumber_nthOrderId ha, orderNumber_nthOrderId hb] at this
  exact_mod_cast JsNum.int.inj this

theorem generateOrderId_of_ids {store : Store}
    (h : store.map (fun o => o.orderId)
      = (List.range store.length).map (fun i => nthOrderId (i + 1))) :
    (store.length < twoPow53 → generateOrderId store = nthOrderId (store.length + 1))
    ∧ (store.length = twoPow53 → ∃ o ∈ store, o.orderId = generateOrderId store) := by
  rcases List.eq_nil_or_concat store with hnil | ⟨front, last, hcat⟩
  · subst hnil
    exact ⟨fun _ => by decide, fun hlen => absurd hlen (by decide)⟩
  · rw [List.concat_eq_append] at hcat
    subst hcat
    have hlast : lastOrder (front ++ [last]) = some last := by
      simp [lastOrder]
    have hid : last.orderId = nthOrderId (front.length + 1) := by
      simp only [List.map_append, List.length_append, List.length_singleton,
        List.range_succ, List.map_cons, List.map_nil] at h
      have := List.append_inj' h (by simp)
      simpa using this.2
    have hlen : (front ++ [last]).length = front.length + 1 := by simp
    constructor
    · intro hlt
      rw [nthOrderId_eq] at hid
      rw [generateOrderId_of_last _ _ (by omega) hlast hid, nthOrderId, hlen]
    · intro heq
      refine ⟨last, by simp, ?_⟩
      have hfl : front.length + 1 = twoPow53 := by omega
      rw [hfl] at hid
      have hid' := hid
      rw [nthOrderId_eq] at hid'
      rw [generateOrderId_of_last_limit _ hlast hid', hid, nthOrderId]

theorem reachable_orderIds {store : Store} (hr : Reachable store) :
    store.map (fun o => o.orderId)
        = (List.range store.length).map (fun i => nthOrderId (i + 1))
    ∧ store.length ≤ twoPow53 := by
  induction hr with
  | empty => exact ⟨rfl, by decide⟩
  | @step store op _ ih =>
    obtain ⟨ihids, ihlen⟩ := ih
    rcases step_effect store op with h | ⟨order, h, _, _, _, _, h5, h6⟩ | ⟨id, o, o', hf, h, hm⟩
    · rw [h]; exact ⟨ihids, ihlen⟩
    · have hlt : store.length < twoPow53 := by
        rcases Nat.lt_or_eq_of_le ihlen with hlt | heq
        · exact hlt
        · obtain ⟨o, ho, hdup⟩ := (generateOrderId_of_ids ihids).2 heq
          exact absurd (hdup.trans h5.symm) (h6 o ho)
      rw [h]
      refine ⟨?_, by simp only [List.length_append, List.length_singleton]; omega⟩
      simp only [List.map_append, List.length_append, List.length_singleton, List.range_succ,
        List.map_cons, List.map_nil]
      rw [ihids, h5, (generateOrderId_of_ids ihids).1 hlt]
    · rw [h, save_map_eq _ hf hm.1 hm.2.1, save_length]
      exact ⟨ihids, ihlen⟩

/-! ## Fresh identifiers -/

/-- C4: in a collection reached from the empty one by any sequence of lifecycle
requests, no two orders share an identifier, and every successful `createOrder`
appends a pending order with a non-empty item list whose order number is strictly
greater than the order number of every order already stored. -/
theorem createOrder_fresh_identifier (store : Store) (hr : Reachable store) :
    (store.map (fun o => o.orderId)).Nodup
    ∧ ∀ (menu : Menu) (user : User) (items pickupTime specialInstructions : JsVal),
        (createOrder menu user items pickupTime specialInstructions store).1.isSuccess = true →
        ∃ order : Order,
          createOrder menu user items pickupTime specialInstructions store
            = (.json 201 order, store ++ [order])
          ∧ order.status = .pending ∧ order.items ≠ []
          ∧ (∀ o ∈ store, ∃ a b : Int, orderNumber o.orderId = .int a
              ∧ orderNumber order.orderId = .int b ∧ a < b)
          ∧ (∀ o ∈ store, o.orderId ≠ order.orderId) := by
  obtain ⟨hids, hlen⟩ := reachable_orderIds hr
  constructor
  · rw [hids]
    refine List.Nodup.map_on ?_ (List.nodup_range _)
    intro a ha b hb hab
    have ha' : a < store.length := List.mem_range.1 ha
    have hb' : b < store.length := List.mem_range.1 hb
    have := nthOrderId_injective (by omega) (by omega) hab
    omega
  · intro menu user items pickupTime specialInstructions hsucc
    rcases createOrder_effect menu user items pickupTime specialInstructions store with
      h | ⟨order, h, h1, h2, _, _, h5, h6⟩
    · rw [h.1] at hsucc
      exact absurd hsucc (by simp)
    · have hlt : store.length < twoPow53 := by
        rcases Nat.lt_or_eq_of_le hlen with hlt | heq
        · exact hlt
        · obtain ⟨o, ho, hdup⟩ := (generateOrderId_of_ids hids).2 heq
          exact absurd (hdup.trans h5.symm) (h6 o ho)
      refine ⟨order, h, h1, h2, ?_, h6⟩
      intro o ho
      have hmem : o.orderId ∈ store.map (fun o => o.orderId) := List.mem_map.2 ⟨o, ho, rfl⟩
      rw [hids] at hmem
      obtain ⟨i, hi, hio⟩ := List.mem_map.1 hmem
      have hi' : i < store.length := List.mem_range.1 hi
      refine ⟨((i + 1 : Nat) : Int), ((store.length + 1 : Nat) : Int), ?_, ?_, ?_⟩
      · rw [← hio, orderNumber_nthOrderId (by omega)]
      · rw [h5, (generateOrderId_of_ids hids).1 hlt, orderNumber_nthOrderId (by omega)]
      · exact_mod_cast Nat.succ_lt_succ hi'

/-- Witness of C4: the collection after one creation. -/
theorem createOrder_fresh_identifier_witness :
    Reachable (step [] sampleCreate).2
    ∧ ((List.map (fun o => o.orderId) (step [] sampleCreate).2).Nodup
      ∧ ∀ (menu : Menu) (user : User) (items pickupTime specialInstructions : JsVal),
        (createOrder menu user items pickupTime specialInstructions
            (step [] sampleCreate).2).1.isSuccess = true →
        ∃ order : Order,
          createOrder menu user items pickupTime specialInstructions (step [] sampleCreate).2
            = (.json 201 order, (step [] sampleCreate).2 ++ [order])
          ∧ order.status = .pending ∧ order.items ≠ []
          ∧ (∀ o ∈ (step [] sampleCreate).2, ∃ a b : Int, orderNumber o.orderId = .int a
              ∧ orderNumber order.orderId = .int b ∧ a < b)
          ∧ (∀ o ∈ (step [] sampleCreate).2, o.orderId ≠ order.orderId)) :=
  ⟨Reachable.step sampleCreate Reachable.empty,
    createOrder_fresh_identifier _ (Reachable.step sampleCreate Reachable.empty)⟩

/-! ## Malformed identifiers -/

theorem magnitudeToString_of_le {m : Nat} (h : m ≤ twoPow53) :
    magnitudeToString m = Nat.repr m := by
  rcases Nat.lt_or_eq_of_le h with hlt | heq
  · simp [magnitudeToString, hlt]
  · subst heq
    rfl

theorem JsNum.addOne_int {m : Int} (hlo : -(twoPow53 : Int) ≤ m) (hhi : m < (twoPow53 : Int)) :
    JsNum.addOne (.int m) = .int (m + 1) := by
  have habs : (m + 1).natAbs ≤ twoPow53 := by omega
  simp only [JsNum.addOne, JsNum.ofInt, JsNum.ofNat, roundToDouble_of_le habs]
  by_cases hneg : m + 1 < 0
  · simp only [hneg, decide_True, if_true]
    congr 1
    omega
  · simp only [hneg, decide_False, Bool.false_eq_true, if_false]
    congr 1
    omega

theorem numberToString_int {x : Int} (h : x.natAbs ≤ twoPow53) :
    numberToString (.int x) = decimal x := by
  simp only [numberToString, decimal, magnitudeToString_of_le h]

/-- C5 (as the code has it): `generateOrderId` does not fail on an identifier of
another shape. When no number can be read from the most recent identifier it
returns `ORDNaN`; when an integer `m` with `-2^53 <= m < 2^53` is read from its
start (as in `ORD12abc` or `ORD-5`) it returns `ORD` followed by the decimal
rendering of `m + 1`, with its minus sign when negative, left-padded with zeros to
three characters; and `createOrder` stores the new order under the returned
identifier whenever its own checks pass and the identifier is not taken. -/
theorem generateOrderId_malformed (store : Store) (last : Order)
    (hlast : lastOrder store = some last) :
    (orderNumber last.orderId = .nan → generateOrderId store = "ORDNaN")
    ∧ (∀ m : Int, -(twoPow53 : Int) ≤ m → m < (twoPow53 : Int) →
        orderNumber last.orderId = .int m →
        generateOrderId store
          = "ORD" ++ (String.mk (List.replicate (3 - (decimal (m + 1)).length) '0')
              ++ decimal (m + 1)))
    ∧ (∀ (menu : Menu) (user : User) (xs : List JsVal) (pickupTime specialInstructions : JsVal),
        xs ≠ [] → pickupTime.truthy = true → validateItems menu xs = none →
        (∀ o ∈ store, o.orderId ≠ generateOrderId store) →
        ∃ order : Order,
          createOrder menu user (.arr xs) pickupTime specialInstructions store
            = (.json 201 order, store ++ [order])
          ∧ order.orderId = generateOrderId store) := by
  refine ⟨?_, ?_, ?_⟩
  · intro hnone
    unfold generateOrderId
    rw [hlast]
    simp only [hnone]
    decide
  · intro m hlo hhi hm
    unfold generateOrderId
    rw [hlast]
    simp only [hm, JsNum.addOne_int hlo hhi]
    rw [numberToString_int (by omega), padStart_zero]
  · intro menu user xs pickupTime specialInstructions hne hp hval hfree
    have hlen : (xs.length == 0) = false := by
      cases xs with
      | nil => exact absurd rfl hne
      | cons x rest => rfl
    have hany : store.any (fun o => o.orderId == generateOrderId store) = false := by
      rw [Bool.eq_false_iff]
      intro hcon
      obtain ⟨o, ho, heq⟩ := List.any_eq_true.1 hcon
      exact hfree o ho (by simpa using heq)
    refine ⟨{
      id := store.length, orderId := generateOrderId store, userId := user.id, items := xs
      pickupTime := pickupTime, specialInstructions := specialInstructions.or (.str "")
      status := .pending, cancelledAt := none, canceledBy := none }, ?_, rfl⟩
    unfold createOrder
    simp [hlen, hp, hval, create, hany]

/-- Witness of C5: the most recent identifier is `XYZ`. -/
theorem generateOrderId_malformed_witness :
    lastOrder [sampleMalformed] = some sampleMalformed
    ∧ ((orderNumber sampleMalformed.orderId = .nan →
          generateOrderId [sampleMalformed] = "ORDNaN")
      ∧ (∀ m : Int, -(twoPow53 : Int) ≤ m → m < (twoPow53 : Int) →
          orderNumber sampleMalformed.orderId = .int m →
          generateOrderId [sampleMalformed]
            = "ORD" ++ (String.mk (List.replicate (3 - (decimal (m + 1)).length) '0')
                ++ decimal (m + 1)))
      ∧ (∀ (menu : Menu) (user : User) (xs : List JsVal)
          (pickupTime specialInstructions : JsVal),
          xs ≠ [] → pickupTime.truthy = true → validateItems menu xs = none →
          (∀ o ∈ [sampleMalformed], o.orderId ≠ generateOrderId [sampleMalformed]) →
          ∃ order : Order,
            createOrder menu user (.arr xs) pickupTime specialInstructions [sampleMalformed]
              = (.json 201 order, [sampleMalformed] ++ [order])
            ∧ order.orderId = generateOrderId [sampleMalformed])) :=
  ⟨rfl, generateOrderId_malformed [sampleMalformed] sampleMalformed rfl⟩

/-- Counterexample to C5 as stated: with `XYZ` as the most recent identifier
`generateOrderId` returns `ORDNaN` and `createOrder` succeeds and stores an order
under it; with `ORD12abc` the returned identifier `ORD013` is computed from the
malformed value. -/
theorem generateOrderId_malformed_no_error :
    generateOrderId [sampleMalformed] = "ORDNaN"
    ∧ generateOrderId [sampleTrailing] = "ORD013"
    ∧ (createOrder sampleMenu sampleOwner (.arr [burgerItem]) (.str "12:30") .undefined
        [sampleMalformed]).1.isSuccess = true
    ∧ (createOrder sampleMenu sampleOwner (.arr [burgerItem]) (.str "12:30") .undefined
        [sampleMalformed]).2.map (fun o => o.orderId) = ["XYZ", "ORDNaN"] := by
  refine ⟨by decide, by decide, by decide, by decide⟩

/-! ## Cancellation fields -/

/-- C6: in every collection reached from the empty one by lifecycle requests, each
order has `cancelledAt` set exactly when its status is cancelled and `canceledBy`
set exactly when its status is cancelled, in which case it holds one of the roles
student, staff, manager. -/
theorem cancellation_fields_iff (store : Store) (hr : Reachable store) :
    ∀ o ∈ store,
      (o.cancelledAt ≠ none ↔ o.status = .cancelled)
      ∧ (o.canceledBy ≠ none ↔ o.status = .cancelled)
      ∧ (o.status = .cancelled →
          ∃ role ∈ [Role.student, Role.staff, Role.manager], o.canceledBy = some role) := by
  have key : ∀ o ∈ store, (o.cancelledAt ≠ none ↔ o.status = .cancelled)
      ∧ (o.canceledBy ≠ none ↔ o.status = .cancelled) := by
    refine reachable_forall
      (fun o => (o.cancelledAt ≠ none ↔ o.status = .cancelled)
        ∧ (o.canceledBy ≠ none ↔ o.status = .cancelled)) ?_ ?_ hr
    · intro order h1 _ h3 h4
      simp [h1, h3, h4]
    · rintro o o' ⟨hp1, hp2⟩ ⟨_, _, _, hm⟩
      rcases hm with ⟨a1, a2, a3, a4, _⟩ | ⟨_, _, a3, a4, a5, _⟩ | ⟨a1, a2, a3, _⟩
      · rw [a3, a4, a2]
        rw [a1] at hp1 hp2
        exact ⟨hp1, hp2⟩
      · simp [a3, a4, a5]
      · rw [a2, a3]
        have hne : o.status ≠ .cancelled ∧ o'.status ≠ .cancelled := by
          revert a1
          cases o.status <;> cases o'.status <;> simp [acceptedTransitions]
        constructor
        · constructor
          · intro h; exact absurd (hp1.1 h) hne.1
          · intro h; exact absurd h hne.2
        · constructor
          · intro h; exact absurd (hp2.1 h) hne.1
          · intro h; exact absurd h hne.2
  intro o ho
  obtain ⟨k1, k2⟩ := key o ho
  refine ⟨k1, k2, fun hc => ?_⟩
  have hset := k2.2 hc
  cases hby : o.canceledBy with
  | none => exact absurd hby hset
  | some role => cases role <;> simp

/-- Witness of C6: the collection after the sample order was created and then
cancelled by a staff member. -/
theorem cancellation_fields_iff_witness :
    Reachable (step (step [] sampleCreate).2 (.staffCancelOrder 9 sampleStaff 0)).2
    ∧ ∀ o ∈ (step (step [] sampleCreate).2 (.staffCancelOrder 9 sampleStaff 0)).2,
      (o.cancelledAt ≠ none ↔ o.status = .cancelled)
      ∧ (o.canceledBy ≠ none ↔ o.status = .cancelled)
      ∧ (o.status = .cancelled →
          ∃ role ∈ [Role.student, Role.staff, Role.manager], o.canceledBy = some role) :=
  ⟨Reachable.step _ (Reachable.step sampleCreate Reachable.empty),
    cancellation_fields_iff _ (Reachable.step _ (Reachable.step sampleCreate Reachable.empty))⟩

/-! ## Repeated cancellation by the owner -/

/-- C11, evaluated on the code: the owner cancels the sample order a second time.
The request is rejected and the order is unchanged, but the response is the one of
the pending-only guard, `Cannot cancel order after preparing`; the branch answering
`Order is already cancelled` comes after that guard and is never reached. -/
theorem cancelOrder_repeat_message :
    sampleCancelled.status = .cancelled ∧ sampleOwner.id = sampleCancelled.userId
    ∧ cancelOrder 9 sampleOwner 0 [sampleCancelled]
        = (.message 400 "Cannot cancel order after preparing", [sampleCancelled])
    ∧ (cancelOrder 9 sampleOwner 0 [sampleCancelled]).1
        ≠ .message 400 "Order is already cancelled"
    ∧ Staff.cancelOrder 9 sampleStaff 0 [sampleCancelled]
        = (.message 400 "Order is already cancelled", [sampleCancelled]) := by
  refine ⟨rfl, rfl, rfl, ?_, rfl⟩
  intro h
  simp [cancelOrder, findById, sampleCancelled, sampleOrder, sampleOwner] at h

/-! ## Cancellation by staff -/

/-- C12: for an existing order and any requesting user (staff and managers in
particular), the staff `cancelOrder` succeeds exactly when the order is neither
cancelled nor picked; on success the stored order has status cancelled,
`cancelledAt` stamped and `canceledBy` equal to the role of the user, every other
field as before; on failure the collection is unchanged. -/
theorem staffCancelOrder_contract (store : Store) (id : Nat) (order : Order) (user : User)
    (now : Nat) (h : findById store id = some order) :
    ((Staff.cancelOrder now user id store).1.isSuccess = true
        ↔ (order.status ≠ .cancelled ∧ order.status ≠ .picked))
    ∧ ((Staff.cancelOrder now user id store).1.isSuccess = true →
        ∃ order' : Order,
          (Staff.cancelOrder now user id store).1 = .json 200 order'
          ∧ findById (Staff.cancelOrder now user id store).2 id = some order'
          ∧ order'.status = .cancelled ∧ order'.cancelledAt = some now
          ∧ order'.canceledBy = some user.role
          ∧ order'.id = order.id ∧ order'.orderId = order.orderId
          ∧ order'.userId = order.userId ∧ order'.items = order.items
          ∧ order'.pickupTime = order.pickupTime
          ∧ order'.specialInstructions = order.specialInstructions)
    ∧ ((Staff.cancelOrder now user id store).1.isSuccess = false →
        (Staff.cancelOrder now user id store).2 = store) := by
  by_cases hc : order.status = .cancelled
  · have hres : Staff.cancelOrder now user id store
        = (.message 400 "Order is already cancelled", store) := by
      simp [Staff.cancelOrder, h, hc]
    rw [hres]
    refine ⟨?_, ?_, fun _ => rfl⟩
    · simp [hc, Response.isSuccess, Response.status]
    · intro hs; simp [Response.isSuccess, Response.status] at hs
  · by_cases hp : order.status = .picked
    · have hres : Staff.cancelOrder now user id store
          = (.message 400 "Cannot cancel a picked order", store) := by
        simp [Staff.cancelOrder, h, hp]
      rw [hres]
      refine ⟨?_, ?_, fun _ => rfl⟩
      · simp [hp, Response.isSuccess, Response.status]
      · intro hs; simp [Response.isSuccess, Response.status] at hs
    · have hres : Staff.cancelOrder now user id store
          = (.json 200 { order with
                status := .cancelled, cancelledAt := some now, canceledBy := some user.role },
              save { order with
                status := .cancelled, cancelledAt := some now, canceledBy := some user.role }
                store) := by
        simp [Staff.cancelOrder, h, hc, hp]
      rw [hres]
      refine ⟨?_, ?_, ?_⟩
      · simp [hc, hp, Response.isSuccess, Response.status]
      · intro _
        exact ⟨_, rfl, findById_save _ h (show order.id = id from findById_id h),
          rfl, rfl, rfl, rfl, rfl, rfl, rfl, rfl, rfl⟩
      · intro hs; simp [Response.isSuccess, Response.status] at hs

/-- Witness of C12: a staff member cancels the preparing sample order. -/
theorem staffCancelOrder_contract_witness :
    findById [samplePreparing] 0 = some samplePreparing
    ∧ (((Staff.cancelOrder 9 sampleStaff 0 [samplePreparing]).1.isSuccess = true
        ↔ (samplePreparing.status ≠ .cancelled ∧ samplePreparing.status ≠ .picked))
      ∧ ((Staff.cancelOrder 9 sampleStaff 0 [samplePreparing]).1.isSuccess = true →
        ∃ order' : Order,
          (Staff.cancelOrder 9 sampleStaff 0 [samplePreparing]).1 = .json 200 order'
          ∧ findById (Staff.cancelOrder 9 sampleStaff 0 [samplePreparing]).2 0 = some order'
          ∧ order'.status = .cancelled ∧ order'.cancelledAt = some 9
          ∧ order'.canceledBy = some sampleStaff.role
          ∧ order'.id = samplePreparing.id ∧ order'.orderId = samplePreparing.orderId
          ∧ order'.userId = samplePreparing.userId ∧ order'.items = samplePreparing.items
          ∧ order'.pickupTime = samplePreparing.pickupTime
          ∧ order'.specialInstructions = samplePreparing.specialInstructions)
      ∧ ((Staff.cancelOrder 9 sampleStaff 0 [samplePreparing]).1.isSuccess = false →
        (Staff.cancelOrder 9 sampleStaff 0 [samplePreparing]).2 = [samplePreparing])) :=
  ⟨rfl, staffCancelOrder_contract [samplePreparing] 0 samplePreparing sampleStaff 9 rfl⟩

/-! ## Updates after the order left `pending` -/

/-- C14: on an order whose status is preparing, ready, picked or cancelled,
`updateOrder` called by the owner answers 400 `Cannot modify after preparing` and
leaves the collection unchanged, whatever the patch. -/
theorem updateOrder_not_pending (store : Store) (id : Nat) (order : Order) (user : User)
    (menu : Menu) (items pickupTime specialInstructions : JsVal)
    (h : findById store id = some order) (hu : user.id = order.userId)
    (hs : order.status ≠ .pending) :
    updateOrder menu user id items pickupTime specialInstructions store
      = (.message 400 "Cannot modify after preparing", store) := by
  simp [updateOrder, h, hu, hs]

/-- Witness of C14: the owner patches the preparing sample order. -/
theorem updateOrder_not_pending_witness :
    (findById [samplePreparing] 0 = some samplePreparing
      ∧ sampleOwner.id = samplePreparing.userId ∧ samplePreparing.status ≠ .pending)
    ∧ updateOrder sampleMenu sampleOwner 0 (.arr [burgerItem]) (.str "13:00") (.str "hot")
        [samplePreparing] = (.message 400 "Cannot modify after preparing", [samplePreparing]) :=
  ⟨⟨rfl, rfl, by decide⟩,
    updateOrder_not_pending [samplePreparing] 0 samplePreparing sampleOwner sampleMenu
      (.arr [burgerItem]) (.str "13:00") (.str "hot") rfl rfl (by decide)⟩

/-! ## Items are never empty -/

/-- C16: in every collection reached from the empty one by lifecycle requests with
arbitrary bodies (items given as an empty list, a non-list value, `null` or an empty
string included), every order, and so every order that is not cancelled, has a
non-empty item list. -/
theorem items_never_empty (store : Store) (hr : Reachable store) :
    (∀ o ∈ store, o.items ≠ []) ∧ (∀ o ∈ store, o.status ≠ .cancelled → o.items ≠ []) := by
  have key : ∀ o ∈ store, o.items ≠ [] := by
    refine reachable_forall (fun o => o.items ≠ []) ?_ ?_ hr
    · intro order _ h2 _ _
      exact h2
    · rintro o o' hp ⟨_, _, _, hm⟩
      rcases hm with ⟨_, _, _, _, a5⟩ | ⟨_, _, _, _, _, a6⟩ | ⟨_, _, _, a4⟩
      · rcases a5 with a5 | a5
        · rw [a5]; exact hp
        · exact a5
      · rw [a6]; exact hp
      · rw [a4]; exact hp
  exact ⟨key, fun o ho _ => key o ho⟩

/-- Witness of C16: the sample order was created and its owner then sent a patch
whose items are the empty list. -/
theorem items_never_empty_witness :
    Reachable (step (step [] sampleCreate).2
      (.updateOrder sampleMenu sampleOwner 0 (.arr []) .undefined .undefined)).2
    ∧ ((∀ o ∈ (step (step [] sampleCreate).2
          (.updateOrder sampleMenu sampleOwner 0 (.arr []) .undefined .undefined)).2,
        o.items ≠ [])
      ∧ (∀ o ∈ (step (step [] sampleCreate).2
          (.updateOrder sampleMenu sampleOwner 0 (.arr []) .undefined .undefined)).2,
        o.status ≠ .cancelled → o.items ≠ [])) :=
  ⟨Reachable.step _ (Reachable.step sampleCreate Reachable.empty),
    items_never_empty _ (Reachable.step _ (Reachable.step sampleCreate Reachable.empty))⟩

/-! ## The student queries -/

theorem filter_length_split {α : Type} (p q r : α → Bool) (l : List α)
    (h : ∀ x, p x = true → (q x = true ∧ r x = false) ∨ (q x = false ∧ r x = true)) :
    (l.filter (fun x => p x && q x)).length + (l.filter (fun x => p x && r x)).length
      = (l.filter p).length := by
  induction l with
  | nil => rfl
  | cons x rest ih =>
    by_cases hp : p x = true
    · rcases h x hp with ⟨hq, hr⟩ | ⟨hq, hr⟩ <;>
        simp [List.filter_cons, hp, hq, hr] <;> omega
    · have hp' : p x = false := by simpa using hp
      simp [List.filter_cons, hp', ih]

/-- C18: `getCurrentOrders` returns exactly the orders of the requesting user whose
status is pending, preparing or ready, and `getOrderHistory` exactly those whose
status is picked or cancelled; neither holds an order of another user, every order
of the user is in exactly one of the two results, and together they have as many
entries as the user has orders. -/
theorem student_queries_partition (user : User) (store : Store) :
    (∀ o, o ∈ getCurrentOrders user store ↔ (o ∈ store ∧ o.userId = user.id
        ∧ (o.status = .pending ∨ o.status = .preparing ∨ o.status = .ready)))
    ∧ (∀ o, o ∈ getOrderHistory user store ↔ (o ∈ store ∧ o.userId = user.id
        ∧ (o.status = .picked ∨ o.status = .cancelled)))
    ∧ (∀ o ∈ store, o.userId = user.id →
        (o ∈ getCurrentOrders user store ∧ o ∉ getOrderHistory user store)
        ∨ (o ∉ getCurrentOrders user store ∧ o ∈ getOrderHistory user store))
    ∧ (getCurrentOrders user store).length + (getOrderHistory user store).length
        = (store.filter (fun o => o.userId == user.id)).length := by
  have hcur : ∀ o, o ∈ getCurrentOrders user store ↔ (o ∈ store ∧ o.userId = user.id
      ∧ (o.status = .pending ∨ o.status = .preparing ∨ o.status = .ready)) := by
    intro o
    simp [getCurrentOrders, List.mem_filter]
  have hhist : ∀ o, o ∈ getOrderHistory user store ↔ (o ∈ store ∧ o.userId = user.id
      ∧ (o.status = .picked ∨ o.status = .cancelled)) := by
    intro o
    simp [getOrderHistory, List.mem_filter]
  refine ⟨hcur, hhist, ?_, ?_⟩
  · intro o ho hu
    rw [hcur, hhist]
    cases hs : o.status <;> simp [ho, hu]
  · simp only [getCurrentOrders, getOrderHistory, List.length_reverse]
    apply filter_length_split
    intro o _
    cases hs : o.status <;> simp

/-- Witness of C18: the owner of the sample order has one pending and one cancelled
order. -/
theorem student_queries_partition_witness :
    (∀ o, o ∈ getCurrentOrders sampleOwner [sampleOrder, sampleCancelled]
        ↔ (o ∈ [sampleOrder, sampleCancelled] ∧ o.userId = sampleOwner.id
          ∧ (o.status = .pending ∨ o.status = .preparing ∨ o.status = .ready)))
    ∧ (∀ o, o ∈ getOrderHistory sampleOwner [sampleOrder, sampleCancelled]
        ↔ (o ∈ [sampleOrder, sampleCancelled] ∧ o.userId = sampleOwner.id
          ∧ (o.status = .picked ∨ o.status = .cancelled)))
    ∧ (∀ o ∈ [sampleOrder, sampleCancelled], o.userId = sampleOwner.id →
        (o ∈ getCurrentOrders sampleOwner [sampleOrder, sampleCancelled]
          ∧ o ∉ getOrderHistory sampleOwner [sampleOrder, sampleCancelled])
        ∨ (o ∉ getCurrentOrders sampleOwner [sampleOrder, sampleCancelled]
          ∧ o ∈ getOrderHistory sampleOwner [sampleOrder, sampleCancelled]))
    ∧ (getCurrentOrders sampleOwner [sampleOrder, sampleCancelled]).length
        + (getOrderHistory sampleOwner [sampleOrder, sampleCancelled]).length
        = ([sampleOrder, sampleCancelled].filter (fun o => o.userId == sampleOwner.id)).length :=
  student_queries_partition sampleOwner [sampleOrder, sampleCancelled]

/-! ## When `updateOrderStatus` succeeds -/

theorem Status.toString_injective {a b : Status} (h : a.toString = b.toString) : a = b := by
  cases a <;> cases b <;> first | rfl | (exact absurd h (by decide))

theorem updateOrderStatus_cases (id : Nat) (status : JsVal) (store : Store) :
    (∃ (order : Order) (r : Status), findById store id = some order
        ∧ status = .str r.toString ∧ (order.status, r) ∈ acceptedTransitions
        ∧ Staff.updateOrderStatus id status store
            = (.json 200 { order with status := r }, save { order with status := r } store))
    ∨ ((Staff.updateOrderStatus id status store).1.isSuccess = false
        ∧ (Staff.updateOrderStatus id status store).2 = store
        ∧ ¬ ∃ (order : Order) (r : Status), findById store id = some order
            ∧ status = .str r.toString ∧ (order.status, r) ∈ acceptedTransitions) := by
  by_cases hv : includes Staff.validStatuses status = true
  · cases hf : findById store id with
    | none =>
      right
      refine ⟨?_, ?_, ?_⟩
      · simp [Staff.updateOrderStatus, hv, hf, Response.isSuccess, Response.status]
      · simp [Staff.updateOrderStatus, hv, hf]
      · rintro ⟨order, r, h, _⟩
        simp at h
    | some order =>
      have hr : ∃ r : Status, status = .str r.toString := by
        rcases (includes_validStatuses_iff status).1 hv with h | h | h | h
        · exact ⟨.pending, h⟩
        · exact ⟨.preparing, h⟩
        · exact ⟨.ready, h⟩
        · exact ⟨.picked, h⟩
      obtain ⟨r, rfl⟩ := hr
      by_cases hin : (order.status, r) ∈ acceptedTransitions
      · left
        refine ⟨order, r, rfl, rfl, hin, ?_⟩
        rw [updateOrderStatus_of_found hf r, if_pos hin]
      · right
        rw [updateOrderStatus_of_found hf r, if_neg hin]
        refine ⟨?_, ?_, ?_⟩
        · split_ifs <;> rfl
        · split_ifs <;> rfl
        · rintro ⟨order', r', h, hs, hin'⟩
          have ho : order = order' := Option.some.inj h
          have hrr : r = r' := Status.toString_injective (by simpa using hs)
          subst ho; subst hrr
          exact hin hin'
  · right
    refine ⟨?_, ?_, ?_⟩
    · simp [Staff.updateOrderStatus, hv, Response.isSuccess, Response.status]
    · simp [Staff.updateOrderStatus, hv]
    · rintro ⟨order, r, _, hs, hin⟩
      apply hv
      subst hs
      revert hin
      cases order.status <;> cases r <;> decide

/-- C19: `updateOrderStatus` succeeds exactly when the order exists and the pair
(current status, requested status) is pending->preparing, preparing->ready or
ready->picked. Whenever it fails the collection is unchanged; the addressed order
keeps its status or advances along one of these three pairs, so it is never moved
back, and no order becomes cancelled through this handler. -/
theorem updateOrderStatus_success_iff (store : Store) (id : Nat) (status : JsVal) :
    ((Staff.updateOrderStatus id status store).1.isSuccess = true
        ↔ ∃ (order : Order) (r : Status), findById store id = some order
            ∧ status = .str r.toString ∧ (order.status, r) ∈ acceptedTransitions)
    ∧ ((Staff.updateOrderStatus id status store).1.isSuccess = false →
        (Staff.updateOrderStatus id status store).2 = store)
    ∧ (∀ order : Order, findById store id = some order →
        ∃ order' : Order, findById (Staff.updateOrderStatus id status store).2 id = some order'
          ∧ (order'.status = order.status
            ∨ (order.status, order'.status) ∈ acceptedTransitions))
    ∧ (∀ o ∈ (Staff.updateOrderStatus id status store).2, o.status = .cancelled → o ∈ store) := by
  rcases updateOrderStatus_cases id status store with
    ⟨order, r, hf, hs, hin, hres⟩ | ⟨hfail, hsame, hnot⟩
  · rw [hres]
    refine ⟨⟨fun _ => ⟨order, r, hf, hs, hin⟩, fun _ => rfl⟩, ?_, ?_, ?_⟩
    · intro hcon
      simp [Response.isSuccess, Response.status] at hcon
    · intro order0 hf0
      have h0 : order = order0 := Option.some.inj (hf.symm.trans hf0)
      subst h0
      exact ⟨_, findById_save _ hf (show order.id = id from findById_id hf), Or.inr hin⟩
    · intro o ho hc
      rcases mem_save ho with ho | ho
      · exfalso
        subst ho
        have hrc : r = .cancelled := hc
        subst hrc
        revert hin
        cases order.status <;> decide
      · exact ho
  · refine ⟨⟨fun hsucc => ?_, fun hex => absurd hex hnot⟩, fun _ => hsame, ?_, ?_⟩
    · rw [hfail] at hsucc
      exact absurd hsucc (by simp)
    · intro order hf
      exact ⟨order, by rw [hsame]; exact hf, Or.inl rfl⟩
    · intro o ho _
      rw [hsame] at ho
      exact ho

/-- Witness of C19: a request to move the pending sample order to preparing. -/
theorem updateOrderStatus_success_iff_witness :
    ((Staff.updateOrderStatus 0 (.str "preparing") [sampleOrder]).1.isSuccess = true
        ↔ ∃ (order : Order) (r : Status), findById [sampleOrder] 0 = some order
            ∧ JsVal.str "preparing" = .str r.toString
            ∧ (order.status, r) ∈ acceptedTransitions)
    ∧ ((Staff.updateOrderStatus 0 (.str "preparing") [sampleOrder]).1.isSuccess = false →
        (Staff.updateOrderStatus 0 (.str "preparing") [sampleOrder]).2 = [sampleOrder])
    ∧ (∀ order : Order, findById [sampleOrder] 0 = some order →
        ∃ order' : Order,
          findById (Staff.updateOrderStatus 0 (.str "preparing") [sampleOrder]).2 0 = some order'
          ∧ (order'.status = order.status
            ∨ (order.status, order'.status) ∈ acceptedTransitions))
    ∧ (∀ o ∈ (Staff.updateOrderStatus 0 (.str "preparing") [sampleOrder]).2,
        o.status = .cancelled → o ∈ [sampleOrder]) :=
  updateOrderStatus_success_iff [sampleOrder] 0 (.str "preparing")

/-! ## Patches by the owner -/

theorem replaceItems_ok_cases {menu : Menu} {items : JsVal} {order order1 : Order}
    (h : replaceItems menu items order = .ok order1) :
    (items.truthy = false ∧ order1 = order)
    ∨ ∃ xs : List JsVal, xs ≠ [] ∧ validateItems menu xs = none
      ∧ items = .arr xs ∧ order1 = { order with items := xs } := by
  unfold replaceItems at h
  split at h
  · split at h
    · next xs _ =>
      split at h
      · exact absurd h (by simp)
      · next hlen =>
        split at h
        · exact absurd h (by simp)
        · next hval =>
          injection h with h
          exact Or.inr ⟨xs, by simpa using hlen, hval, rfl, h.symm⟩
    · exact absurd h (by simp)
  · next ht =>
    injection h with h
    exact Or.inl ⟨by simpa using ht, h.symm⟩

/-- C15 (as the code has it): when `updateOrder` succeeds for the owner of a pending
order, the stored order has the patch's items if the patch's `items` is truthy (then
it is a validated non-empty array) and its old items otherwise; the patch's
`pickupTime` if that is truthy and its old pickup time otherwise; and, when the
patch's `specialInstructions` is not `undefined`, that value if it is truthy and
the empty string otherwise, the old instructions being kept for `undefined`.
Document id, identifier, owner, status and the cancellation fields are unchanged. -/
theorem updateOrder_patch (store : Store) (id : Nat) (order : Order) (user : User)
    (menu : Menu) (items pickupTime specialInstructions : JsVal)
    (h : findById store id = some order) (hu : user.id = order.userId)
    (hs : order.status = .pending)
    (hsucc : (updateOrder menu user id items pickupTime specialInstructions store).1.isSuccess
      = true) :
    ∃ order' : Order,
      updateOrder menu user id items pickupTime specialInstructions store
        = (.json 200 order', save order' store)
      ∧ findById (updateOrder menu user id items pickupTime specialInstructions store).2 id
          = some order'
      ∧ (items.truthy = true → items = .arr order'.items)
      ∧ (items.truthy = false → order'.items = order.items)
      ∧ order'.pickupTime = (if pickupTime.truthy then pickupTime else order.pickupTime)
      ∧ (specialInstructions = .undefined →
          order'.specialInstructions = order.specialInstructions)
      ∧ (specialInstructions ≠ .undefined →
          order'.specialInstructions
            = (if specialInstructions.truthy then specialInstructions else .str ""))
      ∧ order'.id = order.id ∧ order'.orderId = order.orderId ∧ order'.userId = order.userId
      ∧ order'.status = order.status ∧ order'.cancelledAt = order.cancelledAt
      ∧ order'.canceledBy = order.canceledBy := by
  have hne : (order.userId != user.id) = false := by simp [hu]
  have hpe : (order.status != Status.pending) = false := by simp [hs]
  cases hchk : replaceItems menu items order with
  | error r =>
    have hres : updateOrder menu user id items pickupTime specialInstructions store
        = (r, store) := by
      simp [updateOrder, h, hne, hpe, hchk]
    rw [hres] at hsucc
    rw [replaceItems_error hchk] at hsucc
    exact absurd hsucc (by simp)
  | ok order1 =>
    have hres : ∃ order' : Order,
        updateOrder menu user id items pickupTime specialInstructions store
          = (.json 200 order', save order' store)
        ∧ order'.items = order1.items
        ∧ order'.pickupTime = (if pickupTime.truthy then pickupTime else order.pickupTime)
        ∧ (specialInstructions = .undefined →
            order'.specialInstructions = order.specialInstructions)
        ∧ (specialInstructions ≠ .undefined →
            order'.specialInstructions
              = (if specialInstructions.truthy then specialInstructions else .str ""))
        ∧ order'.id = order.id ∧ order'.orderId = order.orderId
        ∧ order'.userId = order.userId
        ∧ order'.status = order.status ∧ order'.cancelledAt = order.cancelledAt
        ∧ order'.canceledBy = order.canceledBy := by
      have h1 : order1.id = order.id ∧ order1.orderId = order.orderId
          ∧ order1.userId = order.userId ∧ order1.status = order.status
          ∧ order1.cancelledAt = order.cancelledAt ∧ order1.canceledBy = order.canceledBy
          ∧ order1.pickupTime = order.pickupTime
          ∧ order1.specialInstructions = order.specialInstructions := by
        rcases replaceItems_ok_cases hchk with ⟨_, rfl⟩ | ⟨xs, _, _, _, rfl⟩ <;>
          exact ⟨rfl, rfl, rfl, rfl, rfl, rfl, rfl, rfl⟩
      obtain ⟨b1, b2, b3, b4, b5, b6, b7, b8⟩ := h1
      rcases updateOrder_effect menu user id items pickupTime specialInstructions store with
        hfail | ⟨_, o', _, hform, _⟩
      · rw [hfail.1] at hsucc
        exact absurd hsucc (by simp)
      · refine ⟨o', hform, ?_⟩
        simp only [updateOrder, h, hne, hpe, hchk, Bool.false_eq_true, if_false] at hform
        have hx := (Response.json.inj (Prod.mk.inj hform).1).2
        subst hx
        cases hp : pickupTime.truthy <;>
          cases specialInstructions <;>
            simp [JsVal.or, JsVal.truthy, b1, b2, b3, b4, b5, b6, b7, b8]
    obtain ⟨order', e1, e2, e3, e4, e5, e6, e7, e8, e9, e10, e11⟩ := hres
    refine ⟨order', e1, ?_, ?_, ?_, e3, e4, e5, e6, e7, e8, e9, e10, e11⟩
    · rw [e1]
      exact findById_save _ h (by rw [e6]; exact findById_id h)
    · intro ht
      rcases replaceItems_ok_cases hchk with ⟨hf, _⟩ | ⟨xs, _, _, hx, rfl⟩
      · rw [hf] at ht
        exact absurd ht (by simp)
      · rw [hx, e2]
    · intro hf
      rcases replaceItems_ok_cases hchk with ⟨_, rfl⟩ | ⟨xs, _, _, hx, _⟩
      · exact e2
      · rw [hx] at hf
        simp [JsVal.truthy] at hf

/-- Witness of C15: the owner replaces the pickup time of the pending sample order. -/
theorem updateOrder_patch_witness :
    (findById [sampleOrder] 0 = some sampleOrder ∧ sampleOwner.id = sampleOrder.userId
      ∧ sampleOrder.status = .pending
      ∧ (updateOrder sampleMenu sampleOwner 0 .undefined (.str "13:00") .undefined
          [sampleOrder]).1.isSuccess = true)
    ∧ ∃ order' : Order,
      updateOrder sampleMenu sampleOwner 0 .undefined (.str "13:00") .undefined [sampleOrder]
        = (.json 200 order', save order' [sampleOrder])
      ∧ findById (updateOrder sampleMenu sampleOwner 0 .undefined (.str "13:00") .undefined
          [sampleOrder]).2 0 = some order'
      ∧ (JsVal.undefined.truthy = true → JsVal.undefined = .arr order'.items)
      ∧ (JsVal.undefined.truthy = false → order'.items = sampleOrder.items)
      ∧ order'.pickupTime
          = (if (JsVal.str "13:00").truthy then .str "13:00" else sampleOrder.pickupTime)
      ∧ (JsVal.undefined = .undefined →
          order'.specialInstructions = sampleOrder.specialInstructions)
      ∧ (JsVal.undefined ≠ .undefined →
          order'.specialInstructions
            = (if JsVal.undefined.truthy then .undefined else .str ""))
      ∧ order'.id = sampleOrder.id ∧ order'.orderId = sampleOrder.orderId
      ∧ order'.userId = sampleOrder.userId
      ∧ order'.status = sampleOrder.status ∧ order'.cancelledAt = sampleOrder.cancelledAt
      ∧ order'.canceledBy = sampleOrder.canceledBy :=
  ⟨⟨rfl, rfl, rfl, by decide⟩,
    updateOrder_patch [sampleOrder] 0 sampleOrder sampleOwner sampleMenu .undefined
      (.str "13:00") .undefined rfl rfl rfl (by decide)⟩

/-- Counterexample to C15 as stated: the owner patches the pending sample order with
an empty pickup time and `null` instructions. The update succeeds, yet the stored
pickup time is still `12:30`, not the patch's value, and the stored instructions
are the empty string, not `null`. -/
theorem updateOrder_patch_not_wholesale :
    (updateOrder sampleMenu sampleOwner 0 .undefined (.str "") .null [sampleOrder]).1.isSuccess
      = true
    ∧ (findById (updateOrder sampleMenu sampleOwner 0 .undefined (.str "") .null
        [sampleOrder]).2 0).map (fun o => o.pickupTime) = some (.str "12:30")
    ∧ (findById (updateOrder sampleMenu sampleOwner 0 .undefined (.str "") .null
        [sampleOrder]).2 0).map (fun o => o.specialInstructions) = some (.str "") := by
  refine ⟨by decide, rfl, rfl⟩

/-! ## Identifier conflicts -/

theorem createOrderInterleaved_same (menu : Menu) (user : User)
    (items pickupTime specialInstructions : JsVal) (store : Store) :
    createOrderInterleaved menu user items pickupTime specialInstructions store store
      = createOrder menu user items pickupTime specialInstructions store := by
  unfold createOrderInterleaved createOrder
  rfl

/-- C17 (as the code has it): when persisting the new order fails with an
identifier uniqueness conflict, `createOrder` neither re-derives the identifier nor
retries: it answers at once with 400 `Order ID conflict. Please try again` and
stores nothing, whatever a fresh read of the collection would give. -/
theorem createOrder_conflict_no_retry (menu : Menu) (user : User) (xs : List JsVal)
    (pickupTime specialInstructions : JsVal) (storeAtRead storeAtWrite : Store)
    (hne : xs ≠ []) (hp : pickupTime.truthy = true) (hval : validateItems menu xs = none)
    (hdup : ∃ o ∈ storeAtWrite, o.orderId = generateOrderId storeAtRead) :
    createOrderInterleaved menu user (.arr xs) pickupTime specialInstructions
        storeAtRead storeAtWrite
      = (.message 400 "Order ID conflict. Please try again", storeAtWrite) := by
  have hlen : (xs.length == 0) = false := by
    cases xs with
    | nil => exact absurd rfl hne
    | cons x rest => rfl
  have hany : storeAtWrite.any (fun o => o.orderId == generateOrderId storeAtRead) = true := by
    obtain ⟨o, ho, heq⟩ := hdup
    exact List.any_eq_true.2 ⟨o, ho, by simp [heq]⟩
  simp [createOrderInterleaved, hlen, hp, hval, create, hany]

/-- Witness of C17: another request stored `ORD002` between the read and the write. -/
theorem createOrder_conflict_no_retry_witness :
    ([burgerItem] ≠ [] ∧ (JsVal.str "12:30").truthy = true
      ∧ validateItems sampleMenu [burgerItem] = none
      ∧ ∃ o ∈ [sampleOrder, sampleOrder2], o.orderId = generateOrderId [sampleOrder])
    ∧ createOrderInterleaved sampleMenu sampleOwner (.arr [burgerItem]) (.str "12:30") .undefined
        [sampleOrder] [sampleOrder, sampleOrder2]
      = (.message 400 "Order ID conflict. Please try again", [sampleOrder, sampleOrder2]) :=
  ⟨⟨by simp, rfl, rfl, sampleOrder2, by simp, by decide⟩,
    createOrder_conflict_no_retry sampleMenu sampleOwner [burgerItem] (.str "12:30") .undefined
      [sampleOrder] [sampleOrder, sampleOrder2] (by simp) rfl rfl
      ⟨sampleOrder2, by simp, by decide⟩⟩

/-- Counterexample to C17 as stated: `ORD002` was stored between the read and the
write of a creation. The conflict is surfaced at once, although a fresh read gives
the free identifier `ORD003` and a second attempt would have succeeded. -/
theorem createOrder_conflict_surfaced_at_once :
    createOrderInterleaved sampleMenu sampleOwner (.arr [burgerItem]) (.str "12:30") .undefined
        [sampleOrder] [sampleOrder, sampleOrder2]
      = (.message 400 "Order ID conflict. Please try again", [sampleOrder, sampleOrder2])
    ∧ generateOrderId [sampleOrder, sampleOrder2] = "ORD003"
    ∧ (createOrder sampleMenu sampleOwner (.arr [burgerItem]) (.str "12:30") .undefined
        [sampleOrder, sampleOrder2]).1.isSuccess = true := by
  refine ⟨rfl, by decide, by decide⟩

/-! ## Items that pass and items that do not -/

theorem validateItems_cons_accepted {menu : Menu} {item : JsVal} (rest : List JsVal)
    (h : itemAccepted menu item = true) :
    validateItems menu (item :: rest) = validateItems menu rest := by
  rw [validateItems]
  cases item <;>
    simp [itemAccepted, itemComplete, itemName, JsVal.get, JsVal.truthy] at h ⊢
  next fields =>
    obtain ⟨⟨⟨h1, h2⟩, h3⟩, h4⟩ := h
    rw [h1, h2, h3]
    split at h4
    · next menuItem hm => simp [hm, h4]
    · exact absurd h4 (by simp)

theorem validateItems_append_accepted {menu : Menu} {pre : List JsVal} (rest : List JsVal)
    (h : ∀ x ∈ pre, itemAccepted menu x = true) :
    validateItems menu (pre ++ rest) = validateItems menu rest := by
  induction pre with
  | nil => rfl
  | cons x pre ih =>
    rw [List.cons_append, validateItems_cons_accepted _ (h x (List.mem_cons_self _ _))]
    exact ih (fun y hy => h y (List.mem_cons_of_mem _ hy))

theorem validateItems_all_accepted {menu : Menu} {xs : List JsVal}
    (h : ∀ x ∈ xs, itemAccepted menu x = true) : validateItems menu xs = none := by
  have := @validateItems_append_accepted menu xs [] h
  simpa [validateItems] using this

theorem validateItems_cons_not_found {menu : Menu} {item : JsVal} (rest : List JsVal)
    (hc : itemComplete item = true) (hm : menu (itemName item) = .ok none) :
    validateItems menu (item :: rest)
      = match (itemName item).toStr with
        | .error e => some (.message 500 e)
        | .ok text => some (.message 400 ("Menu item \"" ++ text ++ "\" not found")) := by
  rw [validateItems]
  cases item <;> simp [itemComplete, itemName, JsVal.get, JsVal.truthy] at hc hm ⊢
  next fields =>
    obtain ⟨⟨h1, h2⟩, h3⟩ := hc
    rw [h1, h2, h3]
    simp [hm]

theorem validateItems_cons_not_available {menu : Menu} {item : JsVal} (rest : List JsVal)
    {menuItem : MenuItem} (hc : itemComplete item = true)
    (hm : menu (itemName item) = .ok (some menuItem)) (ha : menuItem.isAvailable = false) :
    validateItems menu (item :: rest)
      = match (itemName item).toStr with
        | .error e => some (.message 500 e)
        | .ok text =>
          some (.message 400 ("Menu item \"" ++ text ++ "\" is not available")) := by
  rw [validateItems]
  cases item <;> simp [itemComplete, itemName, JsVal.get, JsVal.truthy] at hc hm ⊢
  next fields =>
    obtain ⟨⟨h1, h2⟩, h3⟩ := hc
    rw [h1, h2, h3]
    simp [hm, ha]

theorem validateItems_cons_falsy {menu : Menu} {fields : List (String × JsVal)}
    (rest : List JsVal)
    (h : (JsVal.lookup "name" fields).truthy = false
      ∨ (JsVal.lookup "quantity" fields).truthy = false
      ∨ (JsVal.lookup "price" fields).truthy = false) :
    validateItems menu (.obj fields :: rest)
      = some (.message 400 "Each item must have name, quantity, and price") := by
  rw [validateItems]
  simp only [JsVal.get]
  cases h1 : (JsVal.lookup "name" fields).truthy
  · simp
  · cases h2 : (JsVal.lookup "quantity" fields).truthy
    · simp
    · cases h3 : (JsVal.lookup "price" fields).truthy
      · simp
      · rw [h1, h2, h3] at h
        simp at h

theorem reachable_generateOrderId_fresh {store : Store} (hr : Reachable store)
    (hlen : store.length < twoPow53) : ∀ o ∈ store, o.orderId ≠ generateOrderId store := by
  obtain ⟨hids, _⟩ := reachable_orderIds hr
  intro o ho heq
  have hmem : o.orderId ∈ store.map (fun o => o.orderId) := List.mem_map.2 ⟨o, ho, rfl⟩
  rw [hids] at hmem
  obtain ⟨i, hi, hio⟩ := List.mem_map.1 hmem
  have hi' : i < store.length := List.mem_range.1 hi
  rw [(generateOrderId_of_ids hids).1 hlen, ← hio] at heq
  have := nthOrderId_injective (by omega) (by omega) heq
  omega

theorem createOrder_of_validate_some {menu : Menu} {xs : List JsVal} {r : Response}
    (user : User) (pickupTime specialInstructions : JsVal) (store : Store)
    (hval : validateItems menu xs = some r) :
    ((createOrder menu user (.arr xs) pickupTime specialInstructions store).1.isSuccess = false
      ∧ (createOrder menu user (.arr xs) pickupTime specialInstructions store).2 = store)
    ∧ (xs ≠ [] → pickupTime.truthy = true →
        createOrder menu user (.arr xs) pickupTime specialInstructions store = (r, store)) := by
  have hr := validateItems_isSuccess hval
  constructor
  · unfold createOrder
    simp only [hval]
    split_ifs <;> first | exact ⟨rfl, rfl⟩ | exact ⟨hr, rfl⟩
  · intro hne hp
    have hlen : (xs.length == 0) = false := by
      cases xs with
      | nil => exact absurd rfl hne
      | cons x rest => rfl
    simp [createOrder, hlen, hp, hval]

theorem updateOrder_of_validate_some {menu : Menu} {xs : List JsVal} {r : Response}
    (user : User) (id : Nat) (pickupTime specialInstructions : JsVal) (store : Store)
    (hval : validateItems menu xs = some r) :
    ((updateOrder menu user id (.arr xs) pickupTime specialInstructions store).1.isSuccess
          = false
      ∧ (updateOrder menu user id (.arr xs) pickupTime specialInstructions store).2 = store)
    ∧ (∀ order : Order, findById store id = some order → user.id = order.userId →
        order.status = .pending → xs ≠ [] →
        updateOrder menu user id (.arr xs) pickupTime specialInstructions store
          = (r, store)) := by
  have hr := validateItems_isSuccess hval
  constructor
  · unfold updateOrder
    cases hf : findById store id with
    | none => exact ⟨rfl, rfl⟩
    | some order =>
      simp only [replaceItems, hval, JsVal.truthy, if_true]
      split_ifs <;> first | exact ⟨rfl, rfl⟩ | exact ⟨hr, rfl⟩
  · intro order hf hu hs hne
    have hlen : (xs.length == 0) = false := by
      cases xs with
      | nil => exact absurd rfl hne
      | cons x rest => rfl
    simp [updateOrder, hf, hu, hs, replaceItems, JsVal.truthy, hlen, hval]

/-! ## The contract of `createOrder` -/

/-- C13 (as the code has it): on a collection reached by lifecycle requests and
holding fewer than `2^53` orders, `createOrder` succeeds, storing and returning a
new pending order with the submitted items and pickup time and with the special
instructions defaulting to the empty string, whenever the items are a non-empty
list of entries each carrying a truthy name, quantity and price (non-empty,
non-zero), the pickup time is provided and every name resolves to an available
menu item. It answers 400 `Please provide at least one item` when the items are
missing, not a list or empty, and 400 `Please provide pickup time` when the pickup
time is missing. When the first item that does not pass carries the three fields
and its name resolves to no menu item or to an unavailable one, it answers 400
naming the item by the string conversion of its name, and 500 when that conversion
throws. -/
theorem createOrder_contract (store : Store) (hr : Reachable store) (menu : Menu)
    (user : User) (items pickupTime specialInstructions : JsVal) :
    (∀ xs : List JsVal, items = .arr xs → xs ≠ [] → pickupTime.truthy = true →
        (∀ x ∈ xs, itemAccepted menu x = true) → store.length < twoPow53 →
        ∃ order : Order,
          createOrder menu user items pickupTime specialInstructions store
            = (.json 201 order, store ++ [order])
          ∧ order.status = .pending ∧ order.items = xs ∧ order.pickupTime = pickupTime
          ∧ order.specialInstructions
              = (if specialInstructions.truthy then specialInstructions else .str "")
          ∧ order.userId = user.id)
    ∧ ((∀ xs : List JsVal, items = .arr xs → xs = []) →
        createOrder menu user items pickupTime specialInstructions store
          = (.message 400 "Please provide at least one item", store))
    ∧ (∀ xs : List JsVal, items = .arr xs → xs ≠ [] → pickupTime.truthy = false →
        createOrder menu user items pickupTime specialInstructions store
          = (.message 400 "Please provide pickup time", store))
    ∧ (∀ (pre post : List JsVal) (item : JsVal), items = .arr (pre ++ item :: post) →
        pickupTime.truthy = true → (∀ x ∈ pre, itemAccepted menu x = true) →
        itemComplete item = true →
        (menu (itemName item) = .ok none →
          (∀ text : String, (itemName item).toStr = .ok text →
            createOrder menu user items pickupTime specialInstructions store
              = (.message 400 ("Menu item \"" ++ text ++ "\" not found"), store))
          ∧ (∀ e : String, (itemName item).toStr = .error e →
            createOrder menu user items pickupTime specialInstructions store
              = (.message 500 e, store)))
        ∧ (∀ menuItem : MenuItem, menu (itemName item) = .ok (some menuItem) →
            menuItem.isAvailable = false →
            (∀ text : String, (itemName item).toStr = .ok text →
              createOrder menu user items pickupTime specialInstructions store
                = (.message 400 ("Menu item \"" ++ text ++ "\" is not available"), store))
            ∧ (∀ e : String, (itemName item).toStr = .error e →
              createOrder menu user items pickupTime specialInstructions store
                = (.message 500 e, store)))) := by
  refine ⟨?_, ?_, ?_, ?_⟩
  · intro xs hitems hne hp hall hsize
    subst hitems
    have hval := validateItems_all_accepted hall
    have hlen : (xs.length == 0) = false := by
      cases xs with
      | nil => exact absurd rfl hne
      | cons x rest => rfl
    have hany : store.any (fun o => o.orderId == generateOrderId store) = false := by
      rw [Bool.eq_false_iff]
      intro hcon
      obtain ⟨o, ho, heq⟩ := List.any_eq_true.1 hcon
      exact reachable_generateOrderId_fresh hr hsize o ho (by simpa using heq)
    refine ⟨{
      id := store.length, orderId := generateOrderId store, userId := user.id, items := xs
      pickupTime := pickupTime
      specialInstructions := if specialInstructions.truthy then specialInstructions else .str ""
      status := .pending, cancelledAt := none, canceledBy := none }, ?_, rfl, rfl, rfl, rfl, rfl⟩
    simp [createOrder, hlen, hp, hval, create, hany, JsVal.or]
  · intro hnot
    cases items with
    | arr xs =>
      have hx : xs = [] := hnot xs rfl
      subst hx
      rfl
    | undefined => rfl
    | null => rfl
    | bool b => rfl
    | num n => rfl
    | fraction text => rfl
    | str s => rfl
    | obj fields => rfl
  · intro xs hitems hne hp
    subst hitems
    have hlen : (xs.length == 0) = false := by
      cases xs with
      | nil => exact absurd rfl hne
      | cons x rest => rfl
    simp [createOrder, hlen, hp]
  · intro pre post item hitems hp hpre hc
    subst hitems
    have hne : pre ++ item :: post ≠ [] := by simp
    constructor
    · intro hm
      have hval := (validateItems_append_accepted (item :: post) hpre).trans
        (validateItems_cons_not_found post hc hm)
      constructor
      · intro text ht
        rw [ht] at hval
        exact (createOrder_of_validate_some user pickupTime specialInstructions store
          hval).2 hne hp
      · intro e he
        rw [he] at hval
        exact (createOrder_of_validate_some user pickupTime specialInstructions store
          hval).2 hne hp
    · intro menuItem hm ha
      have hval := (validateItems_append_accepted (item :: post) hpre).trans
        (validateItems_cons_not_available post hc hm ha)
      constructor
      · intro text ht
        rw [ht] at hval
        exact (createOrder_of_validate_some user pickupTime specialInstructions store
          hval).2 hne hp
      · intro e he
        rw [he] at hval
        exact (createOrder_of_validate_some user pickupTime specialInstructions store
          hval).2 hne hp

/-- Witness of C13: a second order for one burger, placed after the sample order. -/
theorem createOrder_contract_witness :
    Reachable (step [] sampleCreate).2
    ∧ ∃ order : Order,
        createOrder sampleMenu sampleOwner (.arr [burgerItem]) (.str "13:00") .undefined
            (step [] sampleCreate).2
          = (.json 201 order, (step [] sampleCreate).2 ++ [order])
        ∧ order.status = .pending ∧ order.items = [burgerItem]
        ∧ order.pickupTime = .str "13:00"
        ∧ order.specialInstructions
            = (if JsVal.undefined.truthy then .undefined else .str "")
        ∧ order.userId = sampleOwner.id :=
  ⟨Reachable.step sampleCreate Reachable.empty,
    (createOrder_contract (step [] sampleCreate).2
      (Reachable.step sampleCreate Reachable.empty) sampleMenu sampleOwner
      (.arr [burgerItem]) (.str "13:00") .undefined).1 [burgerItem] rfl (by simp) rfl
      (by intro x hx; rw [List.mem_singleton.1 hx]; rfl) (by decide)⟩

/-- Counterexample to C13 as stated: each of the two requests submits one entry that
carries a name, a quantity and a price and names an available menu item, with a
pickup time; both are rejected, because the price of the free water is 0 and the
quantity of the burger is 0. -/
theorem createOrder_zero_rejected :
    freeMenu (.str "Water") = .ok (some { name := "Water", price := 0, isAvailable := true })
    ∧ createOrder freeMenu sampleOwner (.arr [waterItem]) (.str "12:30") .undefined []
        = (.message 400 "Each item must have name, quantity, and price", [])
    ∧ createOrder freeMenu sampleOwner (.arr [zeroBurgerItem]) (.str "12:30") .undefined []
        = (.message 400 "Each item must have name, quantity, and price", []) := by
  refine ⟨rfl, rfl, rfl⟩

/-! ## Items with a zero quantity or price -/

/-- C20 (as the code has it): an item list that contains an entry whose name is the
empty string, whose quantity is 0 or whose price is 0 is always rejected by
`createOrder` and `updateOrder` with the collection unchanged, whatever the menu
says about the named item. The response is 400 `Each item must have name, quantity,
and price` when the entries before it pass validation and the request reaches the
item loop: a pickup time is provided to `createOrder`, and `updateOrder` is called
by the owner of a pending order. -/
theorem zero_item_rejected (menu : Menu) (user : User) (id : Nat) (pre post : List JsVal)
    (fields : List (String × JsVal)) (pickupTime specialInstructions : JsVal) (store : Store)
    (hz : JsVal.lookup "name" fields = .str "" ∨ JsVal.lookup "quantity" fields = .num 0
      ∨ JsVal.lookup "price" fields = .num 0) :
    ((createOrder menu user (.arr (pre ++ .obj fields :: post)) pickupTime specialInstructions
          store).1.isSuccess = false
      ∧ (createOrder menu user (.arr (pre ++ .obj fields :: post)) pickupTime
          specialInstructions store).2 = store)
    ∧ ((updateOrder menu user id (.arr (pre ++ .obj fields :: post)) pickupTime
          specialInstructions store).1.isSuccess = false
      ∧ (updateOrder menu user id (.arr (pre ++ .obj fields :: post)) pickupTime
          specialInstructions store).2 = store)
    ∧ ((∀ x ∈ pre, itemAccepted menu x = true) →
        (pickupTime.truthy = true →
          createOrder menu user (.arr (pre ++ .obj fields :: post)) pickupTime
              specialInstructions store
            = (.message 400 "Each item must have name, quantity, and price", store))
        ∧ (∀ order : Order, findById store id = some order → user.id = order.userId →
            order.status = .pending →
            updateOrder menu user id (.arr (pre ++ .obj fields :: post)) pickupTime
                specialInstructions store
              = (.message 400 "Each item must have name, quantity, and price", store))) := by
  have hfalsy : (JsVal.lookup "name" fields).truthy = false
      ∨ (JsVal.lookup "quantity" fields).truthy = false
      ∨ (JsVal.lookup "price" fields).truthy = false := by
    rcases hz with h | h | h
    · exact Or.inl (by rw [h]; rfl)
    · exact Or.inr (Or.inl (by rw [h]; rfl))
    · exact Or.inr (Or.inr (by rw [h]; rfl))
  have hcons := @validateItems_cons_falsy menu fields post hfalsy
  have hne : pre ++ .obj fields :: post ≠ [] := by simp
  have hsome : ∃ r, validateItems menu (pre ++ .obj fields :: post) = some r := by
    cases hval : validateItems menu (pre ++ .obj fields :: post) with
    | some r => exact ⟨r, rfl⟩
    | none =>
      exfalso
      clear hne
      induction pre with
      | nil =>
        rw [List.nil_append, hcons] at hval
        exact absurd hval (by simp)
      | cons x pre ih => exact ih (validateItems_cons_none hval).2
  obtain ⟨r, hr⟩ := hsome
  refine ⟨(createOrder_of_validate_some user pickupTime specialInstructions store hr).1,
    (updateOrder_of_validate_some user id pickupTime specialInstructions store hr).1, ?_⟩
  intro hpre
  have hval : validateItems menu (pre ++ .obj fields :: post) = _ :=
    (validateItems_append_accepted _ hpre).trans hcons
  constructor
  · intro hp
    exact (createOrder_of_validate_some user pickupTime specialInstructions store hval).2 hne hp
  · intro order hf hu hs
    exact (updateOrder_of_validate_some user id pickupTime specialInstructions store hval).2
      order hf hu hs hne

/-- Witness of C20: a burger followed by one water at the menu price 0. -/
theorem zero_item_rejected_witness :
    (JsVal.lookup "name" [("name", .str "Water"), ("quantity", .num 1), ("price", .num 0)]
        = .str ""
      ∨ JsVal.lookup "quantity" [("name", .str "Water"), ("quantity", .num 1), ("price", .num 0)]
        = .num 0
      ∨ JsVal.lookup "price" [("name", .str "Water"), ("quantity", .num 1), ("price", .num 0)]
        = .num 0)
    ∧ (createOrder freeMenu sampleOwner (.arr ([burgerItem] ++ waterItem :: [])) (.str "12:30")
          .undefined [sampleOrder]
        = (.message 400 "Each item must have name, quantity, and price", [sampleOrder])
      ∧ updateOrder freeMenu sampleOwner 0 (.arr ([burgerItem] ++ waterItem :: []))
          (.str "12:30") .undefined [sampleOrder]
        = (.message 400 "Each item must have name, quantity, and price", [sampleOrder])) :=
  ⟨Or.inr (Or.inr rfl),
    ((zero_item_rejected freeMenu sampleOwner 0 [burgerItem] []
        [("name", .str "Water"), ("quantity", .num 1), ("price", .num 0)] (.str "12:30")
        .undefined [sampleOrder] (Or.inr (Or.inr rfl))).2.2
      (by intro x hx; rw [List.mem_singleton.1 hx]; rfl)).1 rfl,
    ((zero_item_rejected freeMenu sampleOwner 0 [burgerItem] []
        [("name", .str "Water"), ("quantity", .num 1), ("price", .num 0)] (.str "12:30")
        .undefined [sampleOrder] (Or.inr (Or.inr rfl))).2.2
      (by intro x hx; rw [List.mem_singleton.1 hx]; rfl)).2 sampleOrder rfl rfl rfl⟩

/-- Counterexample to C20 as stated: the list holds an entry with quantity 0, but
the unavailable soup comes first, so the response names the soup and is not the
`Each item must have name, quantity, and price` response. -/
theorem zero_item_other_response :
    createOrder sampleMenu sampleOwner (.arr [soupItem, zeroBurgerItem]) (.str "12:30")
        .undefined [] = (.message 400 "Menu item \"Soup\" is not available", [])
    ∧ (createOrder sampleMenu sampleOwner (.arr [soupItem, zeroBurgerItem]) (.str "12:30")
        .undefined []).1 ≠ .message 400 "Each item must have name, quantity, and price"
    ∧ JsVal.lookup "quantity"
        [("name", .str "Burger"), ("quantity", .num 0), ("price", .num 5)] = .num 0 := by
  refine ⟨rfl, ?_, rfl⟩
  intro h
  simp [createOrder, validateItems, soupItem, JsVal.get, JsVal.lookup, JsVal.truthy,
    sampleMenu, JsVal.toStr] at h

end Restaurant
